import Mathlib

/-!
Shallow embedding of the DIVE track-annotation core: the editing mode/state
manager (`useModeManager.ts`) and the track store interface it consumes.
Pure association lists stand in for JS `Map`s; ref/reactive state is passed
explicitly as a `World` value; a thrown `Error` is an `Option String` paired
with the state at the moment of the throw (JS mutations preceding a throw
persist).  Functions whose TypeScript source is not part of this repository
snapshot (the `Track` class and `useTrackStore` callbacks) are modelled from
the specification and are marked as such in their doc comments.
-/

/-- Polymorphic association-list lookup (models `Map.get`): first entry wins. -/
def alistLookup {κ β : Type} [DecidableEq κ] : List (κ × β) → κ → Option β
  | [], _ => none
  | p :: rest, k => if p.1 = k then some p.2 else alistLookup rest k

/-- Association-list insert/replace (models `Map.set`). -/
def alistInsert {κ β : Type} [DecidableEq κ] : List (κ × β) → κ → β → List (κ × β)
  | [], k, v => [(k, v)]
  | p :: rest, k, v => if p.1 = k then (k, v) :: rest else p :: alistInsert rest k v

/-- Association-list removal of every entry with the given key (models `Map.delete`). -/
def alistErase {κ β : Type} [DecidableEq κ] : List (κ × β) → κ → List (κ × β)
  | [], _ => []
  | p :: rest, k => if p.1 = k then alistErase rest k else p :: alistErase rest k

/-- Iteration worker for `jsSetList`, carrying the elements already emitted. -/
def jsSetListAux (seen : List Nat) : List Nat → List Nat
  | [] => []
  | x :: xs => if x ∈ seen then jsSetListAux seen xs else x :: jsSetListAux (seen ++ [x]) xs

/-- JS `Array.from(new Set(xs))`: deduplicate keeping the first occurrence. -/
def jsSetList (l : List Nat) : List Nat :=
  jsSetListAux [] l

/-- JS `Array.from(new Set(xs).add(x))`: append `x` unless already present. -/
def jsSetAdd (l : List Nat) (x : Nat) : List Nat :=
  let d := jsSetList l
  if x ∈ d then d else d ++ [x]

/-- JS truthiness of a `string | undefined` value (`undefined` and `""` are falsy). -/
def strTruthy : Option String → Bool
  | none => false
  | some s => !(s == "")

/-- A rectangle `[x1, y1, x2, y2]` (the `RectBounds` array of the source). -/
structure RectB where
  x1 : Int
  y1 : Int
  x2 : Int
  y2 : Int
deriving Repr, DecidableEq

/-- One GeoJSON interchange shape (point / polygon / line), coordinates flattened. -/
structure GeoFeature where
  gtype : String
  coords : List (Int × Int)
deriving Repr, DecidableEq

/-- The geometry/state recorded for a Track at one frame. -/
structure Feature where
  frame : Nat
  flick : Nat
  bounds : Option RectB
  geometry : List (String × GeoFeature)
  keyframe : Bool
  interpolate : Bool
deriving Repr, DecidableEq

/-- One tracked object: identity, inclusive frame range, per-frame features. -/
structure Track where
  trackId : Nat
  begin : Nat
  end_ : Nat
  features : List (Nat × Feature)
  confidencePairs : List (String × Nat)
  attributes : List (String × String)
deriving Repr, DecidableEq

/-- Modelled from the spec: `Track.getFeature(frame) -> list of Feature|null`
(the `Track` class source is not in this snapshot; §6 gives the signature and
§3 the frame-to-feature mapping). -/
def Track.getFeature (t : Track) (frame : Nat) : List (Option Feature) :=
  [alistLookup t.features frame]

/-- Modelled from the spec: `Track.setFeature` writes the feature for its frame
and keeps `begin`/`end` at the min/max frame with a defined feature (§3 invariant). -/
def Track.setFeature (t : Track) (f : Feature) : Track :=
  { t with
    features := alistInsert t.features f.frame f,
    begin := min t.begin f.frame,
    end_ := max t.end_ f.frame }

/-- Result type of `Track.canInterpolate`. -/
structure CanInterpolateResult where
  features : List (Option Feature)
  interpolate : Bool
deriving Repr, DecidableEq

/-- Modelled from the spec: `Track.canInterpolate(frame) -> { interpolate, features }`
(§6 gives only the signature; the feature list carries the frame's own feature). -/
def Track.canInterpolate (t : Track) (frame : Nat) : CanInterpolateResult :=
  let real := alistLookup t.features frame
  { features := [real], interpolate := real.elim false (fun f => f.interpolate) }

/-- Modelled from the spec: `Track.merge(otherTracks)` absorbs the other tracks'
frame ranges and features into this track (§4.3 `commitMerge`, glossary "Merge"). -/
def Track.merge (t : Track) (others : List Track) : Track :=
  { t with
    begin := others.foldl (fun b o => min b o.begin) t.begin,
    end_ := others.foldl (fun e o => max e o.end_) t.end_,
    features := t.features ++ others.foldr (fun o acc => o.features ++ acc) [] }

/-- `camMap : Map<string, Map<TrackId, Track>>` as nested association lists. -/
abbrev CamMap : Type := List (String × List (Nat × Track))

/-- `getPossibleTrack(camMap, trackId, cameraName)`: non-throwing lookup
(`camMap.get(cameraName)?.get(trackId)`), behavior fixed by the spec §4.1. -/
def getPossibleTrack (camMap : CamMap) (trackId : Nat) (cameraName : String) : Option Track :=
  match alistLookup camMap cameraName with
  | none => none
  | some m => alistLookup m trackId

/-- Modelled from the spec: `useTrackStore.getTrack` (source not in this snapshot);
fails with `NotFound` naming both id and camera — the exact message is pinned by
`useTrackStore.spec.ts`. -/
def getTrack (camMap : CamMap) (trackId : Nat) (cameraName : String) : Except String Track :=
  match getPossibleTrack camMap trackId cameraName with
  | none =>
    Except.error ("TrackId " ++ toString trackId ++ " not found in trackMap with cameraName "
      ++ cameraName)
  | some t => Except.ok t

/-- `getTrackAll(camMap, trackId)`: one track per camera holding the id (spec §4.1). -/
def getTrackAll (camMap : CamMap) (trackId : Nat) : List Track :=
  camMap.filterMap (fun p => alistLookup p.2 trackId)

/-- `getAnyTrack(camMap, trackId)`: the track from any camera that has it. -/
def getAnyTrack (camMap : CamMap) (trackId : Nat) : Option Track :=
  (getTrackAll camMap trackId).head?

/-- `camMap.has(camera)`. -/
def camMapHas (camMap : CamMap) (cameraName : String) : Bool :=
  (alistLookup camMap cameraName).isSome

/-- Write a track into a camera's map, creating the camera entry if absent. -/
def camMapInsert (camMap : CamMap) (cameraName : String) (trackId : Nat) (t : Track) : CamMap :=
  match camMap with
  | [] => [(cameraName, [(trackId, t)])]
  | p :: rest =>
    if p.1 = cameraName then (p.1, alistInsert p.2 trackId t) :: rest
    else p :: camMapInsert rest cameraName trackId t

/-- Delete a track id from one camera's map. -/
def camMapRemoveCam (camMap : CamMap) (trackId : Nat) (cameraName : String) : CamMap :=
  camMap.map (fun p => if p.1 = cameraName then (p.1, alistErase p.2 trackId) else p)

/-- Delete a track id from every camera's map. -/
def camMapRemoveAll (camMap : CamMap) (trackId : Nat) : CamMap :=
  camMap.map (fun p => (p.1, alistErase p.2 trackId))

/-- Modelled from the spec: the `removeTrack` callback of `useTrackStore`
(source not in this snapshot): deletes from the named camera's map, or from all
cameras when the camera name is empty; signals `NotFound` if absent (§4.1). -/
def removeTrackCb (camMap : CamMap) (trackId : Nat) (cameraName : String) :
    Except String CamMap :=
  if cameraName = "" then
    if (getTrackAll camMap trackId).isEmpty then
      Except.error ("TrackId " ++ toString trackId ++ " not found in any trackMap")
    else Except.ok (camMapRemoveAll camMap trackId)
  else
    if (getPossibleTrack camMap trackId cameraName).isSome then
      Except.ok (camMapRemoveCam camMap trackId cameraName)
    else
      Except.error ("TrackId " ++ toString trackId ++ " not found in trackMap with cameraName "
        ++ cameraName)

/-- `clientSettings.trackSettings.newTrackSettings`. -/
structure NewTrackSettings where
  mode : String
  newType : String
  trackInterpolate : Bool
  trackAutoAdvanceFrame : Bool
  detectionContinuous : Bool
deriving Repr, DecidableEq

/-- `clientSettings.trackSettings.deletionSettings`. -/
structure DeletionSettings where
  promptUser : Bool
deriving Repr, DecidableEq

/-- `clientSettings.trackSettings`. -/
structure Settings where
  newTrackSettings : NewTrackSettings
  deletionSettings : DeletionSettings
deriving Repr, DecidableEq

/-- The mutable refs the mode manager closes over (spec §3 "Mode Manager session
state"): selection, camera map, annotation modes, merge and linking state, the
`creating` flag, the editing canary and the current playback frame. -/
structure ModeState where
  selectedTrackId : Option Nat
  selectedCamera : String
  editingTrack : Bool
  camMap : CamMap
  editing : String
  selectedKey : String
  mergeList : List Nat
  linkingState : Bool
  linkingTrack : Option Nat
  linkingCamera : String
  creating : Bool
  editingCanary : Bool
  frame : Nat
  nextTrackId : Nat
  settings : Settings
deriving Repr, DecidableEq

/-- A state paired with the externally observable effect log: prompt titles
surfaced, `preventInterrupt` invocations, and recipe `deactivate()` calls. -/
structure World where
  st : ModeState
  prompts : List String
  preventInterrupts : Nat
  deactivations : List String
deriving Repr, DecidableEq

/-- Modelled from the spec: the injected `selectTrack` callback (from
`useTrackSelectionControls`, source not in this snapshot): "sets `selection`"
and the editing flag (§4.3). -/
def applySelectTrack (s : ModeState) (trackId : Option Nat) (edit : Bool) : ModeState :=
  { s with selectedTrackId := trackId, editingTrack := edit }

/-- `_setLinkingTrack(trackId)`: reject (with a "Linking Error" prompt) a
candidate that exists on more than one camera, otherwise store it. -/
def setLinkingTrack (w : World) (trackId : Nat) : World :=
  let trackList := getTrackAll w.st.camMap trackId
  if trackList.length > 1 then
    { w with prompts := w.prompts ++ ["Linking Error"] }
  else
    { w with st := { w.st with linkingTrack := some trackId } }

/-- `handleSelectTrack(trackId, edit)`: resets `creating` unless re-selecting the
same track while creating, feeds the merge list when a merge is pending, hands a
clicked id to linking resolution (early return), then applies the selection with
editing disabled while a merge is pending. -/
def handleSelectTrack (w : World) (trackId : Option Nat) (edit : Bool) : World :=
  let s0 := { w.st with
    creating := w.st.creating && edit && decide (trackId = w.st.selectedTrackId) }
  let w0 := { w with st := s0 }
  match trackId with
  | some tid =>
    if s0.mergeList.isEmpty = false then
      let s1 := { s0 with mergeList := jsSetAdd s0.mergeList tid }
      { w0 with st := applySelectTrack s1 (some tid) (edit && s1.mergeList.isEmpty) }
    else if s0.linkingState then
      setLinkingTrack w0 tid
    else
      { w0 with st := applySelectTrack s0 (some tid) (edit && s0.mergeList.isEmpty) }
  | none =>
    if s0.linkingState then w0
    else { w0 with st := applySelectTrack s0 none (edit && s0.mergeList.isEmpty) }

/-- `handleEscapeMode()`: drop an empty selected track (single-frame range with
no feature) from the current camera, clear linking and merge state, deselect. -/
def handleEscapeMode (w : World) : World × Option String :=
  let step1 : Except String World :=
    match w.st.selectedTrackId with
    | some tid =>
      match getPossibleTrack w.st.camMap tid w.st.selectedCamera with
      | some track =>
        if track.begin = track.end_ then
          if ((Track.getFeature track track.begin).filter (fun f => f.isSome)).isEmpty then
            match removeTrackCb w.st.camMap tid w.st.selectedCamera with
            | Except.ok m => Except.ok { w with st := { w.st with camMap := m } }
            | Except.error e => Except.error e
          else Except.ok w
        else Except.ok w
      | none => Except.ok w
    | none => Except.ok w
  match step1 with
  | Except.error e => (w, some e)
  | Except.ok w1 =>
    let s2 := { w1.st with
      linkingState := false, linkingCamera := "", linkingTrack := none, mergeList := [] }
    (handleSelectTrack { w1 with st := s2 } none false, none)

/-- Modelled from the spec: the `addTrack` callback of `useTrackStore` (source
not in this snapshot): creates a track at the frame with a fresh monotonic id
(or the override id) and registers it on the camera (§4.1); the `afterId`
ordering hint only affects the ordered view, which the mode manager never reads. -/
def addTrackCb (s : ModeState) (frame : Nat) (trackType : String) (_afterId : Option Nat)
    (cameraName : String) (overrideTrackId : Option Nat) : ModeState × Track :=
  let tid := overrideTrackId.getD s.nextTrackId
  let t : Track :=
    { trackId := tid, begin := frame, end_ := frame, features := [],
      confidencePairs := [(trackType, 1)], attributes := [] }
  ({ s with
      camMap := camMapInsert s.camMap cameraName tid t,
      nextTrackId := max s.nextTrackId (tid + 1) }, t)

/-- `handleAddTrackOrDetection()` in the override-free form used internally by
the continuous-detection logic: add a track of the configured type at the
current frame, select it for editing, and enter `creating` mode. -/
def handleAddTrackOrDetection (w : World) : World × Nat :=
  let frame := w.st.frame
  let trackType := w.st.settings.newTrackSettings.newType
  let pr := addTrackCb w.st frame trackType w.st.selectedTrackId w.st.selectedCamera none
  let s2 := applySelectTrack pr.1 (some pr.2.trackId) true
  ({ w with st := { s2 with creating := true } }, pr.2.trackId)

/-- `newTrackSettingsAfterLogic(addedTrack)` (the post-add-advance logic): while
`creating`, Track mode with auto-advance seeks one frame ahead and stays in
creating mode; Detection mode with continuous creation immediately adds another
detection; either way the editing canary is nudged and `creating` is updated. -/
def newTrackSettingsAfterLogic (w : World) : World :=
  let run : World × Bool :=
    if w.st.creating then
      if w.st.settings.newTrackSettings.mode = "Track"
          ∧ w.st.settings.newTrackSettings.trackAutoAdvanceFrame then
        ({ w with st := { w.st with frame := w.st.frame + 1 } }, true)
      else if w.st.settings.newTrackSettings.mode = "Detection"
          ∧ w.st.settings.newTrackSettings.detectionContinuous then
        ((handleAddTrackOrDetection w).1, true)
      else (w, false)
    else (w, false)
  { run.1 with st := { run.1.st with
      editingCanary := !run.1.st.editingCanary, creating := run.2 } }

/-- The `RecipeResult` contract of one `recipe.update` call (spec §4.2). -/
structure RecipeResult where
  data : List (String × List GeoFeature)
  union : List GeoFeature
  unionWithoutBounds : List GeoFeature
  newType : Option String
  newSelectedKey : Option String
  done : Option Bool
deriving Repr, DecidableEq

/-- A geometry-editing recipe: a name and its (externally implemented, pure per
call) `update(eventType, frame, track, inputShapes, key?)` strategy. -/
structure Recipe where
  name : String
  update : String → Nat → Track → List GeoFeature → Option String → RecipeResult

/-- The aggregate update collector of `handleUpdateGeoJSON`. -/
structure UpdateAgg where
  geoJsonFeatureRecord : List (String × List GeoFeature)
  union : List GeoFeature
  unionWithoutBounds : List GeoFeature
  newType : Option String
  newSelectedKey : Option String
  done : List (Option Bool)
deriving Repr, DecidableEq

/-- The empty aggregate declared at the top of `handleUpdateGeoJSON`. -/
def initAgg : UpdateAgg :=
  { geoJsonFeatureRecord := [], union := [], unionWithoutBounds := [],
    newType := none, newSelectedKey := none, done := [] }

/-- One iteration of the recipe fan-out: key conflicts, then accumulation, then
the `newType` / `newSelectedKey` single-owner checks, throwing on violation. -/
def stepRecipe (agg : UpdateAgg) (name : String) (changes : RecipeResult) :
    Except String UpdateAgg :=
  match changes.data.find? (fun kv => (alistLookup agg.geoJsonFeatureRecord kv.1).isSome) with
  | some kv =>
    Except.error ("Recipe " ++ name ++ " tried to overwrite key " ++ kv.1
      ++ " when it was already set")
  | none =>
    let agg1 : UpdateAgg := { agg with
      geoJsonFeatureRecord := agg.geoJsonFeatureRecord ++ changes.data,
      union := agg.union ++ changes.union,
      unionWithoutBounds := agg.unionWithoutBounds ++ changes.unionWithoutBounds,
      done := agg.done ++ [changes.done] }
    match
      (if strTruthy changes.newType then
        if strTruthy agg1.newType then
          Except.error ("Recipe " ++ name ++ " tried to modify type when it was already set")
        else Except.ok { agg1 with newType := changes.newType }
      else Except.ok agg1 : Except String UpdateAgg)
    with
    | Except.error e => Except.error e
    | Except.ok agg2 =>
      if strTruthy changes.newSelectedKey then
        if strTruthy agg2.newSelectedKey then
          Except.error ("Recipe " ++ name
            ++ " tried to modify selectedKey when it was already set")
        else Except.ok { agg2 with newSelectedKey := changes.newSelectedKey }
      else Except.ok agg2

/-- `recipes.forEach` over the collected per-recipe results (name, result). -/
def foldRecipesAux (agg : UpdateAgg) : List (String × RecipeResult) → Except String UpdateAgg
  | [] => Except.ok agg
  | nr :: rest =>
    match stepRecipe agg nr.1 nr.2 with
    | Except.error e => Except.error e
    | Except.ok agg1 => foldRecipesAux agg1 rest

/-- The per-recipe results of one `handleUpdateGeoJSON` call. -/
def recipeResults (recipes : List Recipe) (eventType : String) (frameNum : Nat)
    (track : Track) (data : GeoFeature) (key : Option String) :
    List (String × RecipeResult) :=
  recipes.map (fun r => (r.name, r.update eventType frameNum track [data] key))

/-- Bounding box of a coordinate list. -/
def bboxOf (cs : List (Int × Int)) : Option RectB :=
  match cs with
  | [] => none
  | c :: rest =>
    some (rest.foldl
      (fun b p =>
        { x1 := min b.x1 p.1, y1 := min b.y1 p.2, x2 := max b.x2 p.1, y2 := max b.y2 p.2 })
      { x1 := c.1, y1 := c.2, x2 := c.1, y2 := c.2 })

/-- All coordinates of a shape list. -/
def coordsOf (gs : List GeoFeature) : List (Int × Int) :=
  gs.foldr (fun g acc => g.coords ++ acc) []

/-- Union of two optional bounds rectangles. -/
def unionOptBounds : Option RectB → Option RectB → Option RectB
  | none, b => b
  | a, none => a
  | some a, some b =>
    some { x1 := min a.x1 b.x1, y1 := min a.y1 b.y1, x2 := max a.x2 b.x2, y2 := max a.y2 b.y2 }

/-- Modelled from the spec: `utils.updateBounds` (source not in this snapshot):
`union` polygons are unioned into the existing bounds, `unionWithoutBounds`
polygons replace them (§4.3 `updateGeometry`). -/
def updateBounds (old : Option RectB) (union unionWithoutBounds : List GeoFeature) :
    Option RectB :=
  if unionWithoutBounds.isEmpty = false then bboxOf (coordsOf unionWithoutBounds)
  else if union.isEmpty = false then unionOptBounds old (bboxOf (coordsOf union))
  else old

/-- `flatMapDeep(update.geoJsonFeatureRecord, ...)`: flatten the key-to-shapes
record into key-tagged shapes. -/
def flattenRecord (rec : List (String × List GeoFeature)) : List (String × GeoFeature) :=
  rec.foldr (fun kv acc => (kv.2.map (fun g => (kv.1, g))) ++ acc) []

/-- `handleUpdateGeoJSON(eventType, frameNum, flickNum, data, key?, preventInterrupt?)`:
fan out to the recipes, abort the whole update on a conflict, call
`preventInterrupt` when a drawable changed without a mode switch, apply
mode/key switches (deactivating every recipe on a type change), write the
merged feature once, and run the post-add-advance logic afterwards. -/
def handleUpdateGeoJSON (w : World) (recipes : List Recipe) (eventType : String)
    (frameNum flickNum : Nat) (data : GeoFeature) (key : Option String)
    (hasPreventInterrupt : Bool) : World × Option String :=
  match w.st.selectedTrackId with
  | none => (w, some "Cannot call handleUpdateGeojson without a selected Track ID")
  | some tid =>
    match getPossibleTrack w.st.camMap tid w.st.selectedCamera with
    | none => (w, some (toString tid ++ " missing from trackMap"))
    | some track =>
      let ci := Track.canInterpolate track frameNum
      let real := (ci.features.headI : Option Feature)
      match foldRecipesAux initAgg (recipeResults recipes eventType frameNum track data key) with
      | Except.error e => (w, some e)
      | Except.ok u =>
        let somethingChanged :=
          !u.union.isEmpty || !u.unionWithoutBounds.isEmpty || !u.geoJsonFeatureRecord.isEmpty
        let w1 :=
          if somethingChanged && !strTruthy u.newSelectedKey && !strTruthy u.newType
              && hasPreventInterrupt then
            { w with preventInterrupts := w.preventInterrupts + 1 }
          else
            let s1 :=
              if strTruthy u.newSelectedKey then
                { w.st with selectedKey := u.newSelectedKey.getD "" }
              else w.st
            if strTruthy u.newType then
              { w with
                st := { s1 with editing := u.newType.getD "" },
                deactivations := w.deactivations ++ recipes.map (fun r => r.name) }
            else { w with st := s1 }
        if somethingChanged then
          let newTrack := Track.setFeature track
            { frame := frameNum, flick := flickNum, keyframe := true,
              bounds := updateBounds (real.bind (fun f => f.bounds)) u.union u.unionWithoutBounds,
              interpolate := ci.interpolate,
              geometry := flattenRecord u.geoJsonFeatureRecord }
          let w2 := { w1 with st := { w1.st with
            camMap := camMapInsert w1.st.camMap w.st.selectedCamera tid newTrack } }
          if eventType = "editing" || u.done.all (fun v => v ≠ some false) then
            (newTrackSettingsAfterLogic w2, none)
          else (w2, none)
        else (w1, none)

/-- `handleUnstageFromMerge(trackIds)`: drop the ids from the merge list. -/
def handleUnstageFromMerge (s : ModeState) (trackIds : List Nat) : ModeState :=
  { s with mergeList := s.mergeList.filter (fun trackId => !trackIds.contains trackId) }

/-- The `trackIds.forEach(removeTrack)` loop of `handleRemoveTrack`; a throw
keeps the removals already performed and aborts the rest. -/
def removeTracksFold (camMap : CamMap) (cameraName : String) :
    List Nat → CamMap × Option String
  | [] => (camMap, none)
  | trackId :: rest =>
    match removeTrackCb camMap trackId cameraName with
    | Except.error e => (camMap, some e)
    | Except.ok m => removeTracksFold m cameraName rest

/-- `handleRemoveTrack(trackIds, forcePromptDisable, cameraName)`: optionally
confirm with the user, remove the tracks, unstage them from the merge list and,
for a store-wide removal, select the next (or previous) track.  The function is
`async`; a throw after the prompt stage surfaces as a rejected promise (second
component) with the mutations made so far kept.  `selectNext` stands for the
injected `selectNextTrack` callback and `promptAnswer` for the user's choice. -/
def handleRemoveTrack (w : World) (selectNext : Int → Option Nat) (trackIds : List Nat)
    (forcePromptDisable : Bool) (cameraName : String) (promptAnswer : Bool) :
    World × Option String :=
  let previousOrNext :=
    match selectNext 1 with
    | some x => some x
    | none => selectNext (-1)
  let go (w0 : World) : World × Option String :=
    match removeTracksFold w0.st.camMap cameraName trackIds with
    | (m, some e) => ({ w0 with st := { w0.st with camMap := m } }, some e)
    | (m, none) =>
      let s1 := handleUnstageFromMerge { w0.st with camMap := m } trackIds
      let s2 := if cameraName = "" then applySelectTrack s1 previousOrNext false else s1
      ({ w0 with st := s2 }, none)
  if !forcePromptDisable && w.st.settings.deletionSettings.promptUser then
    let w1 := { w with prompts := w.prompts ++ ["Delete Confirmation"] }
    if !promptAnswer then (w1, none) else go w1
  else go w

/-- `handleToggleMerge()`: seed the merge list with the selection (editing off)
when no merge is pending, otherwise clear the candidate set. -/
def handleToggleMerge (w : World) : World :=
  match w.st.selectedTrackId with
  | some sel =>
    if w.st.mergeList.isEmpty then
      { w with st := applySelectTrack { w.st with mergeList := [sel] } (some sel) false }
    else { w with st := { w.st with mergeList := [] } }
  | none => { w with st := { w.st with mergeList := [] } }

/-- `otherTrackIds.map((trackId) => getTrack(...))`: the JS map throws at the
first missing track, before `merge` runs. -/
def getTracksExc (camMap : CamMap) (cameraName : String) : List Nat → Except String (List Track)
  | [] => Except.ok []
  | trackId :: rest =>
    match getTrack camMap trackId cameraName with
    | Except.error e => Except.error e
    | Except.ok t =>
      match getTracksExc camMap cameraName rest with
      | Except.error e => Except.error e
      | Except.ok ts => Except.ok (t :: ts)

/-- `handleCommitMerge()`: with at least two candidates, merge the others into
the first candidate's track on the selected camera, remove them (prompt
force-skipped; the unawaited async removal cannot throw into this function),
exit merge mode and select the surviving track without editing. -/
def handleCommitMerge (w : World) (selectNext : Int → Option Nat) : World × Option String :=
  if 2 ≤ w.st.mergeList.length then
    match w.st.mergeList with
    | [] => (w, none)
    | first :: rest =>
      match getTrack w.st.camMap first w.st.selectedCamera with
      | Except.error e => (w, some e)
      | Except.ok track =>
        match getTracksExc w.st.camMap w.st.selectedCamera rest with
        | Except.error e => (w, some e)
        | Except.ok others =>
          let merged := Track.merge track others
          let w1 := { w with st := { w.st with
            camMap := camMapInsert w.st.camMap w.st.selectedCamera first merged } }
          let w2 := (handleRemoveTrack w1 selectNext rest true "" true).1
          let w3 := handleToggleMerge w2
          (handleSelectTrack w3 (some merged.trackId) false, none)
  else (w, none)

/-- `handleStartLinking(camera)`: refuse without a selection; enter linking mode
and record the camera, but throw — after the linking flag is already set — when
the camera is unknown. -/
def handleStartLinking (w : World) (camera : String) : World × Option String :=
  if !w.st.linkingState && w.st.selectedTrackId.isSome then
    let s1 := { w.st with linkingState := true }
    if camMapHas s1.camMap camera then
      ({ w with st := { s1 with linkingCamera := camera } }, none)
    else
      ({ w with st := s1 },
        some ("Camera: " ++ camera ++ " does not exist in the system for linking"))
  else if w.st.selectedTrackId.isNone then
    (w, some "Cannot start Linking without a track selected")
  else (w, none)

/-- `handleStopLinking()`: clear all linking state. -/
def handleStopLinking (w : World) : World :=
  { w with st := { w.st with linkingState := false, linkingTrack := none, linkingCamera := "" } }

/-- Modelled from the spec: the single-camera track store of `useTrackStore`
(source not in this snapshot; behavior from §3/§4.1 and `useTrackStore.spec.ts`):
the `singleCam` id-to-track map, the interval index holding one
`(begin, end, id)` entry per track, and the monotonic id counter. -/
structure TrackStore where
  tracks : List (Nat × Track)
  intervalTree : List (Nat × Nat × Nat)
  trackIds : Nat
deriving Repr, DecidableEq

/-- The store before any operation. -/
def emptyStore : TrackStore :=
  { tracks := [], intervalTree := [], trackIds := 0 }

/-- Modelled from the spec: `addTrack(frame, initialType)` — a fresh monotonic
id, a single-frame range at `frame`, registered in the map and interval index. -/
def addTrackStore (s : TrackStore) (frame : Nat) (trackType : String) : TrackStore :=
  let t : Track :=
    { trackId := s.trackIds, begin := frame, end_ := frame, features := [],
      confidencePairs := [(trackType, 1)], attributes := [] }
  { tracks := s.tracks ++ [(s.trackIds, t)],
    intervalTree := s.intervalTree ++ [(frame, frame, s.trackIds)],
    trackIds := s.trackIds + 1 }

/-- Modelled from the spec: `removeTrack(id)` — delete the track from the map
and exactly its entry from the interval index; a missing id signals `NotFound`
and leaves the store unchanged. -/
def removeTrackStore (s : TrackStore) (trackId : Nat) : TrackStore :=
  if (alistLookup s.tracks trackId).isSome then
    { s with
      tracks := s.tracks.filter (fun p => !(p.1 == trackId)),
      intervalTree := s.intervalTree.filter (fun e => !(e.2.2 == trackId)) }
  else s

/-- Modelled from the spec: `queryInterval([a,b])` — the ids of the interval
index entries whose `[begin, end]` overlaps the inclusive query range. -/
def queryInterval (s : TrackStore) (a b : Nat) : List Nat :=
  (s.intervalTree.filter (fun e => decide (e.1 ≤ b ∧ a ≤ e.2.1))).map (fun e => e.2.2)

/-- A user-driven store mutation. -/
inductive StoreOp where
  | add (frame : Nat) (trackType : String)
  | remove (trackId : Nat)
deriving Repr, DecidableEq

/-- Apply one store mutation. -/
def applyOp (s : TrackStore) : StoreOp → TrackStore
  | StoreOp.add frame trackType => addTrackStore s frame trackType
  | StoreOp.remove trackId => removeTrackStore s trackId

/-- Apply a sequence of store mutations starting from the given store. -/
def applyOps (s : TrackStore) : List StoreOp → TrackStore
  | [] => s
  | op :: rest => applyOps (applyOp s op) rest

theorem alistLookup_insert_self {κ β : Type} [DecidableEq κ] (l : List (κ × β)) (k : κ) (v : β) :
    alistLookup (alistInsert l k v) k = some v := by
  induction l with
  | nil => simp [alistInsert, alistLookup]
  | cons p rest ih =>
    by_cases h : p.1 = k
    · simp [alistInsert, alistLookup, h]
    · simp [alistInsert, alistLookup, h, ih]

theorem alistLookup_insert_ne {κ β : Type} [DecidableEq κ] (l : List (κ × β)) (k k' : κ) (v : β)
    (h : k' ≠ k) : alistLookup (alistInsert l k v) k' = alistLookup l k' := by
  induction l with
  | nil => simp [alistInsert, alistLookup, Ne.symm h]
  | cons p rest ih =>
    by_cases hp : p.1 = k
    · simp [alistInsert, alistLookup, hp, Ne.symm h]
    · by_cases hp' : p.1 = k'
      · simp [alistInsert, alistLookup, hp, hp', h]
      · simp [alistInsert, alistLookup, hp, hp', ih]

theorem alistLookup_erase_self {κ β : Type} [DecidableEq κ] (l : List (κ × β)) (k : κ) :
    alistLookup (alistErase l k) k = none := by
  induction l with
  | nil => simp [alistErase, alistLookup]
  | cons p rest ih =>
    by_cases h : p.1 = k
    · simp [alistErase, h, ih]
    · simp [alistErase, alistLookup, h, ih]

theorem alistLookup_erase_ne {κ β : Type} [DecidableEq κ] (l : List (κ × β)) (k k' : κ)
    (h : k' ≠ k) : alistLookup (alistErase l k) k' = alistLookup l k' := by
  induction l with
  | nil => simp [alistErase]
  | cons p rest ih =>
    by_cases hp : p.1 = k
    · simp [alistErase, alistLookup, hp, ih, Ne.symm h]
    · simp [alistErase, alistLookup, hp, ih]

theorem alistLookup_mem {κ β : Type} [DecidableEq κ] (l : List (κ × β)) (k : κ) (v : β)
    (h : alistLookup l k = some v) : (k, v) ∈ l := by
  induction l with
  | nil => simp [alistLookup] at h
  | cons p rest ih =>
    by_cases hp : p.1 = k
    · simp only [alistLookup, hp, if_pos] at h
      cases h
      have hpk : (k, p.2) = p := by
        rw [← hp]
      rw [hpk]
      exact List.mem_cons_self _ _
    · simp only [alistLookup, hp, if_neg, not_false_iff] at h
      exact List.mem_cons_of_mem _ (ih h)

theorem alistLookup_append {κ β : Type} [DecidableEq κ] (l1 l2 : List (κ × β)) (k : κ) :
    alistLookup (l1 ++ l2) k =
      (match alistLookup l1 k with
        | some v => some v
        | none => alistLookup l2 k) := by
  induction l1 with
  | nil => simp [alistLookup]
  | cons p rest ih =>
    by_cases hp : p.1 = k
    · simp [alistLookup, hp]
    · simp [alistLookup, hp, ih]

theorem alistLookup_isSome_iff {κ β : Type} [DecidableEq κ] (l : List (κ × β)) (k : κ) :
    (alistLookup l k).isSome = true ↔ k ∈ l.map Prod.fst := by
  induction l with
  | nil => simp [alistLookup]
  | cons p rest ih =>
    by_cases hp : p.1 = k
    · simp [alistLookup, hp]
    · simp only [alistLookup, hp, if_neg, not_false_iff, List.map_cons, List.mem_cons, ih]
      constructor
      · exact fun h => Or.inr h
      · rintro (h | h)
        · exact absurd h.symm hp
        · exact h

theorem mem_jsSetListAux (seen l : List Nat) (x : Nat) :
    x ∈ jsSetListAux seen l ↔ (x ∈ l ∧ x ∉ seen) := by
  induction l generalizing seen with
  | nil => simp [jsSetListAux]
  | cons y ys ih =>
    by_cases hy : y ∈ seen
    · rw [jsSetListAux, if_pos hy, ih]
      constructor
      · rintro ⟨hx, hs⟩
        exact ⟨List.mem_cons_of_mem _ hx, hs⟩
      · rintro ⟨hx, hs⟩
        rcases List.mem_cons.mp hx with hx | hx
        · exact absurd hy (hx ▸ hs)
        · exact ⟨hx, hs⟩
    · rw [jsSetListAux, if_neg hy]
      constructor
      · intro hmem
        rcases List.mem_cons.mp hmem with hx | hx
        · exact ⟨List.mem_cons.mpr (Or.inl hx), hx ▸ hy⟩
        · rw [ih] at hx
          have hs := hx.2
          rw [List.mem_append] at hs
          push_neg at hs
          exact ⟨List.mem_cons.mpr (Or.inr hx.1), hs.1⟩
      · rintro ⟨hx, hs⟩
        by_cases hxy : x = y
        · exact List.mem_cons.mpr (Or.inl hxy)
        · rcases List.mem_cons.mp hx with h1 | h1
          · exact absurd h1 hxy
          · refine List.mem_cons.mpr (Or.inr ?hh)
            rw [ih]
            refine ⟨h1, ?hh2⟩
            rw [List.mem_append]
            push_neg
            exact ⟨hs, by simpa using hxy⟩

theorem mem_jsSetList (l : List Nat) (x : Nat) : x ∈ jsSetList l ↔ x ∈ l := by
  simp [jsSetList, mem_jsSetListAux]

theorem jsSetList_cons_ne_nil (y : Nat) (ys : List Nat) : jsSetList (y :: ys) ≠ [] := by
  simp [jsSetList, jsSetListAux]

theorem jsSetAdd_ne_nil (l : List Nat) (x : Nat) : jsSetAdd l x ≠ [] := by
  unfold jsSetAdd
  by_cases h : x ∈ jsSetList l
  · simp only [if_pos h]
    intro hnil
    rw [hnil] at h
    simp at h
  · simp [if_neg h]

theorem jsSetAdd_append_of_not_mem (l : List Nat) (x : Nat) (h : x ∉ l) :
    jsSetAdd l x = jsSetList l ++ [x] := by
  unfold jsSetAdd
  rw [if_neg]
  rw [mem_jsSetList]
  exact h

theorem alistLookup_camMapInsert_self (m : CamMap) (cam : String) (trackId : Nat) (t : Track) :
    alistLookup (camMapInsert m cam trackId t) cam =
      some (alistInsert ((alistLookup m cam).getD []) trackId t) := by
  induction m with
  | nil => simp [camMapInsert, alistLookup, alistInsert]
  | cons p rest ih =>
    by_cases hp : p.1 = cam
    · simp [camMapInsert, alistLookup, hp]
    · simp [camMapInsert, alistLookup, hp, ih]

theorem alistLookup_camMapInsert_ne (m : CamMap) (cam cam' : String) (trackId : Nat) (t : Track)
    (h : cam' ≠ cam) :
    alistLookup (camMapInsert m cam trackId t) cam' = alistLookup m cam' := by
  induction m with
  | nil => simp [camMapInsert, alistLookup, Ne.symm h]
  | cons p rest ih =>
    by_cases hp : p.1 = cam
    · simp [camMapInsert, alistLookup, hp, Ne.symm h]
    · by_cases hp' : p.1 = cam'
      · simp [camMapInsert, alistLookup, hp, hp', h]
      · simp [camMapInsert, alistLookup, hp, hp', ih]

theorem getPossibleTrack_camMapInsert_self (m : CamMap) (cam : String) (trackId : Nat)
    (t : Track) : getPossibleTrack (camMapInsert m cam trackId t) trackId cam = some t := by
  rw [getPossibleTrack, alistLookup_camMapInsert_self]
  simp [alistLookup_insert_self]

theorem getPossibleTrack_camMapInsert_ne_id (m : CamMap) (cam cam' : String)
    (trackId trackId' : Nat) (t : Track) (h : trackId' ≠ trackId) :
    getPossibleTrack (camMapInsert m cam trackId t) trackId' cam' =
      getPossibleTrack m trackId' cam' := by
  by_cases hc : cam' = cam
  · subst hc
    rw [getPossibleTrack, alistLookup_camMapInsert_self, getPossibleTrack]
    show alistLookup (alistInsert ((alistLookup m cam').getD []) trackId t) trackId' = _
    rw [alistLookup_insert_ne _ _ _ _ h]
    cases hm : alistLookup m cam' with
    | none => simp [alistLookup]
    | some l => simp
  · rw [getPossibleTrack, alistLookup_camMapInsert_ne _ _ _ _ _ hc, getPossibleTrack]

theorem getTrackAll_camMapInsert_ne (m : CamMap) (cam : String) (trackId trackId' : Nat)
    (t : Track) (h : trackId' ≠ trackId) :
    getTrackAll (camMapInsert m cam trackId t) trackId' = getTrackAll m trackId' := by
  induction m with
  | nil => simp [camMapInsert, getTrackAll, alistLookup, alistInsert, Ne.symm h]
  | cons p rest ih =>
    by_cases hp : p.1 = cam
    · simp only [camMapInsert, if_pos hp, getTrackAll, List.filterMap_cons]
      rw [alistLookup_insert_ne _ _ _ _ h]
    · simp only [camMapInsert, if_neg hp, getTrackAll, List.filterMap_cons] at ih ⊢
      cases halist : alistLookup p.2 trackId' with
      | none => simpa [halist] using ih
      | some tt => simpa [halist] using ih

theorem alistLookup_camMapRemoveAll (m : CamMap) (trackId : Nat) (cam : String) :
    alistLookup (camMapRemoveAll m trackId) cam =
      (alistLookup m cam).map (fun l => alistErase l trackId) := by
  induction m with
  | nil => simp [camMapRemoveAll, alistLookup]
  | cons p rest ih =>
    by_cases hp : p.1 = cam
    · simp [camMapRemoveAll, alistLookup, hp]
    · simp only [camMapRemoveAll, List.map_cons, alistLookup, hp, if_neg, not_false_iff] at ih ⊢
      exact ih

theorem getPossibleTrack_camMapRemoveAll_self (m : CamMap) (trackId : Nat) (cam : String) :
    getPossibleTrack (camMapRemoveAll m trackId) trackId cam = none := by
  rw [getPossibleTrack, alistLookup_camMapRemoveAll]
  cases hm : alistLookup m cam with
  | none => simp
  | some l => simp [alistLookup_erase_self]

theorem getPossibleTrack_camMapRemoveAll_ne (m : CamMap) (trackId trackId' : Nat) (cam : String)
    (h : trackId' ≠ trackId) :
    getPossibleTrack (camMapRemoveAll m trackId) trackId' cam =
      getPossibleTrack m trackId' cam := by
  rw [getPossibleTrack, alistLookup_camMapRemoveAll, getPossibleTrack]
  cases hm : alistLookup m cam with
  | none => simp
  | some l => simp [alistLookup_erase_ne _ _ _ h]

theorem getTrackAll_camMapRemoveAll_self (m : CamMap) (trackId : Nat) :
    getTrackAll (camMapRemoveAll m trackId) trackId = [] := by
  induction m with
  | nil => simp [camMapRemoveAll, getTrackAll]
  | cons p rest ih =>
    simp only [camMapRemoveAll, getTrackAll, List.map_cons, List.filterMap_cons] at ih ⊢
    rw [alistLookup_erase_self]
    exact ih

theorem getTrackAll_camMapRemoveAll_ne (m : CamMap) (trackId trackId' : Nat)
    (h : trackId' ≠ trackId) :
    getTrackAll (camMapRemoveAll m trackId) trackId' = getTrackAll m trackId' := by
  induction m with
  | nil => simp [camMapRemoveAll, getTrackAll]
  | cons p rest ih =>
    simp only [camMapRemoveAll, getTrackAll, List.map_cons, List.filterMap_cons] at ih ⊢
    rw [alistLookup_erase_ne _ _ _ h]
    cases halist : alistLookup p.2 trackId' with
    | none => simpa using ih
    | some tt => simpa using ih

theorem alistLookup_camMapRemoveCam_self (m : CamMap) (trackId : Nat) (cam : String) :
    alistLookup (camMapRemoveCam m trackId cam) cam =
      (alistLookup m cam).map (fun l => alistErase l trackId) := by
  induction m with
  | nil => simp [camMapRemoveCam, alistLookup]
  | cons p rest ih =>
    by_cases hp : p.1 = cam
    · simp [camMapRemoveCam, alistLookup, hp]
    · simp only [camMapRemoveCam, List.map_cons, if_neg hp] at ih ⊢
      simp only [alistLookup, hp, if_neg, not_false_iff]
      exact ih

theorem getPossibleTrack_camMapRemoveCam_self (m : CamMap) (trackId : Nat) (cam : String) :
    getPossibleTrack (camMapRemoveCam m trackId cam) trackId cam = none := by
  rw [getPossibleTrack, alistLookup_camMapRemoveCam_self]
  cases hm : alistLookup m cam with
  | none => simp
  | some l => simp [alistLookup_erase_self]

theorem getTrackAll_ne_nil_of_getPossibleTrack (m : CamMap) (trackId : Nat) (cam : String)
    (t : Track) (h : getPossibleTrack m trackId cam = some t) :
    getTrackAll m trackId ≠ [] := by
  rw [getPossibleTrack] at h
  cases hm : alistLookup m cam with
  | none => rw [hm] at h; cases h
  | some l =>
    rw [hm] at h
    have hmem : (cam, l) ∈ m := alistLookup_mem _ _ _ hm
    have : t ∈ getTrackAll m trackId := by
      rw [getTrackAll, List.mem_filterMap]
      exact ⟨(cam, l), hmem, h⟩
    intro hnil
    rw [hnil] at this
    cases this

/-- The keys a recipe writes into `data`. -/
def dataKeys (r : RecipeResult) : List String :=
  r.data.map Prod.fst

/-- Two collected recipe results write disjoint sets of `data` keys. -/
def KeysDisjoint (x y : String × RecipeResult) : Prop :=
  ∀ k, k ∈ dataKeys x.2 → k ∈ dataKeys y.2 → False

theorem alistLookup_append_isSome_false {κ β : Type} [DecidableEq κ]
    (l1 l2 : List (κ × β)) (k : κ)
    (h : (alistLookup (l1 ++ l2) k).isSome = false) :
    (alistLookup l1 k).isSome = false ∧ (alistLookup l2 k).isSome = false := by
  rw [alistLookup_append] at h
  cases h1 : alistLookup l1 k with
  | some v => rw [h1] at h; simp at h
  | none => rw [h1] at h; exact ⟨rfl, h⟩

theorem stepRecipe_ok (agg : UpdateAgg) (name : String) (ch : RecipeResult) (agg' : UpdateAgg)
    (h : stepRecipe agg name ch = Except.ok agg') :
    agg'.geoJsonFeatureRecord = agg.geoJsonFeatureRecord ++ ch.data
    ∧ agg'.union = agg.union ++ ch.union
    ∧ agg'.unionWithoutBounds = agg.unionWithoutBounds ++ ch.unionWithoutBounds
    ∧ agg'.done = agg.done ++ [ch.done]
    ∧ (∀ kv ∈ ch.data, (alistLookup agg.geoJsonFeatureRecord kv.1).isSome = false)
    ∧ strTruthy agg'.newType = (strTruthy agg.newType || strTruthy ch.newType)
    ∧ (strTruthy agg.newType = true → strTruthy ch.newType = false)
    ∧ strTruthy agg'.newSelectedKey
        = (strTruthy agg.newSelectedKey || strTruthy ch.newSelectedKey)
    ∧ (strTruthy agg.newSelectedKey = true → strTruthy ch.newSelectedKey = false) := by
  unfold stepRecipe at h
  cases hfind : ch.data.find? (fun kv => (alistLookup agg.geoJsonFeatureRecord kv.1).isSome) with
  | some kv => rw [hfind] at h; cases h
  | none =>
    rw [hfind] at h
    have hnone : ∀ kv ∈ ch.data, alistLookup agg.geoJsonFeatureRecord kv.1 = none := by
      intro kv hkv
      have hh := List.find?_eq_none.mp hfind kv hkv
      cases hl : alistLookup agg.geoJsonFeatureRecord kv.1 with
      | none => rfl
      | some v => rw [hl] at hh; simp at hh
    cases hat : strTruthy agg.newType <;>
      cases hct : strTruthy ch.newType <;>
        cases hask : strTruthy agg.newSelectedKey <;>
          cases hcsk : strTruthy ch.newSelectedKey <;>
            simp only [hat, hct, hask, hcsk, Bool.false_eq_true, if_true, if_false,
              Except.ok.injEq, reduceCtorEq] at h <;>
            (subst h
             refine ⟨rfl, rfl, rfl, rfl, ?_, by simp [hat, hct], by simp [hat, hct],
               by simp [hask, hcsk], by simp [hask, hcsk]⟩
             intro kv hkv
             simp [hnone kv hkv])

theorem foldRecipesAux_ok_keys (rs : List (String × RecipeResult)) :
    ∀ (agg u : UpdateAgg), foldRecipesAux agg rs = Except.ok u →
    List.Pairwise KeysDisjoint rs
    ∧ (∀ nr ∈ rs, ∀ k ∈ dataKeys nr.2,
        (alistLookup agg.geoJsonFeatureRecord k).isSome = false) := by
  induction rs with
  | nil => intro agg u _; exact ⟨List.Pairwise.nil, by intro nr hnr; cases hnr⟩
  | cons nr rest ih =>
    intro agg u h
    rw [foldRecipesAux] at h
    cases hstep : stepRecipe agg nr.1 nr.2 with
    | error e => rw [hstep] at h; cases h
    | ok agg1 =>
      rw [hstep] at h
      obtain ⟨hrec, -, -, -, hkeys, -, -, -, -⟩ := stepRecipe_ok agg nr.1 nr.2 agg1 hstep
      obtain ⟨hpw, hrest⟩ := ih agg1 u h
      have hrest' : ∀ nr' ∈ rest, ∀ k ∈ dataKeys nr'.2,
          (alistLookup agg.geoJsonFeatureRecord k).isSome = false
          ∧ (alistLookup nr.2.data k).isSome = false := by
        intro nr' hnr' k hk
        have hh := hrest nr' hnr' k hk
        rw [hrec] at hh
        exact alistLookup_append_isSome_false _ _ _ hh
      constructor
      · refine List.Pairwise.cons ?_ hpw
        intro y hy k hk1 hk2
        have hh := (hrest' y hy k hk2).2
        have hh2 : ¬ k ∈ nr.2.data.map Prod.fst := by
          rw [← alistLookup_isSome_iff nr.2.data k, hh]
          simp
        exact hh2 (by simpa [dataKeys] using hk1)
      · intro nr' hnr' k hk
        rcases List.mem_cons.mp hnr' with hnr1 | hnr1
        · subst hnr1
          rcases List.mem_map.mp hk with ⟨kv, hkv, hkveq⟩
          have := hkeys kv hkv
          rw [hkveq] at this
          exact this
        · exact (hrest' nr' hnr1 k hk).1

theorem foldRecipesAux_ok_newType (rs : List (String × RecipeResult)) :
    ∀ (agg u : UpdateAgg), foldRecipesAux agg rs = Except.ok u →
    (rs.filter (fun nr => strTruthy nr.2.newType)).length
      + (if strTruthy agg.newType then 1 else 0) ≤ 1 := by
  induction rs with
  | nil =>
    intro agg u _
    cases hat : strTruthy agg.newType <;> simp
  | cons nr rest ih =>
    intro agg u h
    rw [foldRecipesAux] at h
    cases hstep : stepRecipe agg nr.1 nr.2 with
    | error e => rw [hstep] at h; cases h
    | ok agg1 =>
      rw [hstep] at h
      obtain ⟨-, -, -, -, -, htype, himp, -, -⟩ := stepRecipe_ok agg nr.1 nr.2 agg1 hstep
      have hrest := ih agg1 u h
      cases hct : strTruthy nr.2.newType with
      | false =>
        rw [List.filter_cons_of_neg (by simp [hct])]
        rw [htype, hct, Bool.or_false] at hrest
        exact hrest
      | true =>
        rw [List.filter_cons_of_pos (by simp [hct])]
        have hat : strTruthy agg.newType = false := by
          cases hat0 : strTruthy agg.newType with
          | false => rfl
          | true => rw [himp hat0] at hct; cases hct
        rw [htype, hct, Bool.or_true] at hrest
        rw [hat]
        have h1 : (if (true : Bool) = true then 1 else 0) = 1 := by simp
        have h0 : (if (false : Bool) = true then 1 else 0) = 0 := by simp
        rw [h1] at hrest
        rw [h0]
        simp only [List.length_cons]
        omega

theorem foldRecipesAux_ok_newSelectedKey (rs : List (String × RecipeResult)) :
    ∀ (agg u : UpdateAgg), foldRecipesAux agg rs = Except.ok u →
    (rs.filter (fun nr => strTruthy nr.2.newSelectedKey)).length
      + (if strTruthy agg.newSelectedKey then 1 else 0) ≤ 1 := by
  induction rs with
  | nil =>
    intro agg u _
    cases hat : strTruthy agg.newSelectedKey <;> simp
  | cons nr rest ih =>
    intro agg u h
    rw [foldRecipesAux] at h
    cases hstep : stepRecipe agg nr.1 nr.2 with
    | error e => rw [hstep] at h; cases h
    | ok agg1 =>
      rw [hstep] at h
      obtain ⟨-, -, -, -, -, -, -, hkey, himp⟩ := stepRecipe_ok agg nr.1 nr.2 agg1 hstep
      have hrest := ih agg1 u h
      cases hct : strTruthy nr.2.newSelectedKey with
      | false =>
        rw [List.filter_cons_of_neg (by simp [hct])]
        rw [hkey, hct, Bool.or_false] at hrest
        exact hrest
      | true =>
        rw [List.filter_cons_of_pos (by simp [hct])]
        have hat : strTruthy agg.newSelectedKey = false := by
          cases hat0 : strTruthy agg.newSelectedKey with
          | false => rfl
          | true => rw [himp hat0] at hct; cases hct
        rw [hkey, hct, Bool.or_true] at hrest
        rw [hat]
        have h1 : (if (true : Bool) = true then 1 else 0) = 1 := by simp
        have h0 : (if (false : Bool) = true then 1 else 0) = 0 := by simp
        rw [h1] at hrest
        rw [h0]
        simp only [List.length_cons]
        omega

theorem stepRecipe_error_shape (agg : UpdateAgg) (name : String) (ch : RecipeResult)
    (e : String) (h : stepRecipe agg name ch = Except.error e) :
    ∃ suffix, e = "Recipe " ++ name ++ suffix := by
  unfold stepRecipe at h
  cases hfind : ch.data.find? (fun kv => (alistLookup agg.geoJsonFeatureRecord kv.1).isSome) with
  | some kv =>
    rw [hfind] at h
    cases h
    refine ⟨" tried to overwrite key " ++ kv.1 ++ " when it was already set", ?_⟩
    simp [String.append_assoc]
  | none =>
    rw [hfind] at h
    cases hct : strTruthy ch.newType <;> cases hat : strTruthy agg.newType <;>
      cases hcsk : strTruthy ch.newSelectedKey <;> cases hask : strTruthy agg.newSelectedKey <;>
        simp only [hct, hat, hcsk, hask, Bool.false_eq_true, if_true, if_false,
          Except.error.injEq, reduceCtorEq] at h <;>
        (try cases h) <;>
        first
        | exact ⟨" tried to modify type when it was already set", rfl⟩
        | exact ⟨" tried to modify selectedKey when it was already set", rfl⟩

theorem foldRecipesAux_error_shape (rs : List (String × RecipeResult)) :
    ∀ (agg : UpdateAgg) (e : String), foldRecipesAux agg rs = Except.error e →
    ∃ name suffix, name ∈ rs.map Prod.fst ∧ e = "Recipe " ++ name ++ suffix := by
  induction rs with
  | nil => intro agg e h; cases h
  | cons nr rest ih =>
    intro agg e h
    rw [foldRecipesAux] at h
    cases hstep : stepRecipe agg nr.1 nr.2 with
    | error e1 =>
      rw [hstep] at h
      cases h
      obtain ⟨suffix, hs⟩ := stepRecipe_error_shape agg nr.1 nr.2 _ hstep
      exact ⟨nr.1, suffix, by simp, hs⟩
    | ok agg1 =>
      rw [hstep] at h
      obtain ⟨name, suffix, hmem, hs⟩ := ih agg1 e h
      refine ⟨name, suffix, ?_, hs⟩
      simp only [List.map_cons, List.mem_cons]
      exact Or.inr hmem

theorem recipeResults_map_fst (recipes : List Recipe) (eventType : String) (frameNum : Nat)
    (track : Track) (data : GeoFeature) (key : Option String) :
    (recipeResults recipes eventType frameNum track data key).map Prod.fst
      = recipes.map Recipe.name := by
  simp [recipeResults, List.map_map, Function.comp]

/-- C1: a geometry update via `handleUpdateGeoJSON` on a selected track in which
two recipes write the same `data` key, or more than one recipe sets `newType`,
or more than one recipe sets `newSelectedKey`, throws (a recipe-conflict error)
and leaves the whole session state — in particular the track's features — and
the effect log unmodified: no feature write occurs. -/
theorem C1_update_conflict_aborts (w : World) (recipes : List Recipe) (eventType : String)
    (frameNum flickNum : Nat) (data : GeoFeature) (key : Option String)
    (hasPreventInterrupt : Bool) (tid : Nat) (track : Track)
    (hsel : w.st.selectedTrackId = some tid)
    (htr : getPossibleTrack w.st.camMap tid w.st.selectedCamera = some track)
    (hconf :
      (∃ pre r1 mid r2 post k,
          recipeResults recipes eventType frameNum track data key
            = pre ++ r1 :: mid ++ r2 :: post
          ∧ k ∈ dataKeys r1.2 ∧ k ∈ dataKeys r2.2)
      ∨ 2 ≤ ((recipeResults recipes eventType frameNum track data key).filter
          (fun nr => strTruthy nr.2.newType)).length
      ∨ 2 ≤ ((recipeResults recipes eventType frameNum track data key).filter
          (fun nr => strTruthy nr.2.newSelectedKey)).length) :
    ∃ name suffix, name ∈ recipes.map Recipe.name
      ∧ handleUpdateGeoJSON w recipes eventType frameNum flickNum data key hasPreventInterrupt
        = (w, some ("Recipe " ++ name ++ suffix)) := by
  cases hfold : foldRecipesAux initAgg
      (recipeResults recipes eventType frameNum track data key) with
  | error e =>
    obtain ⟨name, suffix, hmem, hs⟩ := foldRecipesAux_error_shape _ _ _ hfold
    refine ⟨name, suffix, ?_, ?_⟩
    · rw [recipeResults_map_fst] at hmem
      exact hmem
    · rw [← hs]
      simp only [handleUpdateGeoJSON, hsel, htr, hfold]
  | ok u =>
    exfalso
    rcases hconf with ⟨pre, r1, mid, r2, post, k, heq, hk1, hk2⟩ | hcount | hcount
    · have hpw := (foldRecipesAux_ok_keys _ initAgg u hfold).1
      rw [heq] at hpw
      rw [List.pairwise_append] at hpw
      have hmem1 : r1 ∈ pre ++ r1 :: mid := by
        rw [List.mem_append]
        exact Or.inr (List.mem_cons_self _ _)
      exact hpw.2.2 r1 hmem1 r2 (List.mem_cons_self _ _) k hk1 hk2
    · have hcnt := foldRecipesAux_ok_newType _ initAgg u hfold
      have hini : strTruthy initAgg.newType = false := rfl
      rw [hini] at hcnt
      have h0 : (if (false : Bool) = true then 1 else 0) = 0 := by simp
      rw [h0] at hcnt
      omega
    · have hcnt := foldRecipesAux_ok_newSelectedKey _ initAgg u hfold
      have hini : strTruthy initAgg.newSelectedKey = false := rfl
      rw [hini] at hcnt
      have h0 : (if (false : Bool) = true then 1 else 0) = 0 := by simp
      rw [h0] at hcnt
      omega

theorem foldRecipesAux_ok_empty (rs : List (String × RecipeResult)) :
    ∀ (agg u : UpdateAgg), foldRecipesAux agg rs = Except.ok u →
    (∀ nr ∈ rs, nr.2.data = [] ∧ nr.2.union = [] ∧ nr.2.unionWithoutBounds = []) →
    u.geoJsonFeatureRecord = agg.geoJsonFeatureRecord
    ∧ u.union = agg.union ∧ u.unionWithoutBounds = agg.unionWithoutBounds := by
  induction rs with
  | nil =>
    intro agg u h _
    rw [foldRecipesAux] at h
    cases h
    exact ⟨rfl, rfl, rfl⟩
  | cons nr rest ih =>
    intro agg u h hempty
    rw [foldRecipesAux] at h
    cases hstep : stepRecipe agg nr.1 nr.2 with
    | error e => rw [hstep] at h; cases h
    | ok agg1 =>
      rw [hstep] at h
      obtain ⟨hrec, hu, huwb, -, -, -, -, -, -⟩ := stepRecipe_ok agg nr.1 nr.2 agg1 hstep
      obtain ⟨he1, he2, he3⟩ := hempty nr (by simp)
      obtain ⟨ih1, ih2, ih3⟩ := ih agg1 u h (fun nr' hnr' => hempty nr' (by simp [hnr']))
      rw [he1, List.append_nil] at hrec
      rw [he2, List.append_nil] at hu
      rw [he3, List.append_nil] at huwb
      exact ⟨ih1.trans hrec, ih2.trans hu, ih3.trans huwb⟩

/-- C10 (implicit): a geometry update on a selected track present on the
current camera in which every recipe returns empty `data`, `union` and
`unionWithoutBounds` never writes the feature (the camera map is untouched)
and never runs the post-add-advance logic (the editing canary, the `creating`
flag and the playback frame are untouched), for every `eventType`. -/
theorem C10_empty_update_no_write (w : World) (recipes : List Recipe) (eventType : String)
    (frameNum flickNum : Nat) (data : GeoFeature) (key : Option String)
    (hasPreventInterrupt : Bool) (tid : Nat) (track : Track)
    (hsel : w.st.selectedTrackId = some tid)
    (htr : getPossibleTrack w.st.camMap tid w.st.selectedCamera = some track)
    (hempty : ∀ r ∈ recipes,
      (r.update eventType frameNum track [data] key).data = []
      ∧ (r.update eventType frameNum track [data] key).union = []
      ∧ (r.update eventType frameNum track [data] key).unionWithoutBounds = []) :
    (handleUpdateGeoJSON w recipes eventType frameNum flickNum data key
        hasPreventInterrupt).1.st.camMap = w.st.camMap
    ∧ (handleUpdateGeoJSON w recipes eventType frameNum flickNum data key
        hasPreventInterrupt).1.st.editingCanary = w.st.editingCanary
    ∧ (handleUpdateGeoJSON w recipes eventType frameNum flickNum data key
        hasPreventInterrupt).1.st.creating = w.st.creating
    ∧ (handleUpdateGeoJSON w recipes eventType frameNum flickNum data key
        hasPreventInterrupt).1.st.frame = w.st.frame := by
  have hempty' : ∀ nr ∈ recipeResults recipes eventType frameNum track data key,
      nr.2.data = [] ∧ nr.2.union = [] ∧ nr.2.unionWithoutBounds = [] := by
    intro nr hnr
    rw [recipeResults] at hnr
    rcases List.mem_map.mp hnr with ⟨r, hr, hreq⟩
    rw [← hreq]
    exact hempty r hr
  cases hfold : foldRecipesAux initAgg
      (recipeResults recipes eventType frameNum track data key) with
  | error e =>
    simp [handleUpdateGeoJSON, hsel, htr, hfold]
  | ok u =>
    obtain ⟨h1, h2, h3⟩ := foldRecipesAux_ok_empty _ initAgg u hfold hempty'
    simp only [initAgg] at h1 h2 h3
    simp only [handleUpdateGeoJSON, hsel, htr, hfold, h1, h2, h3, List.isEmpty_nil,
      Bool.not_true, Bool.false_or, Bool.false_and, Bool.and_false, if_false]
    cases hsk : strTruthy u.newSelectedKey <;> cases hnt : strTruthy u.newType <;>
      simp [hsk, hnt]

/-- Concrete settings fixture. -/
def baseSettings : Settings :=
  { newTrackSettings :=
      { mode := "Track", newType := "foo", trackInterpolate := false,
        trackAutoAdvanceFrame := false, detectionContinuous := false },
    deletionSettings := { promptUser := true } }

/-- A single-frame track with no features (fixture). -/
def c1Track : Track :=
  { trackId := 1, begin := 5, end_ := 5, features := [],
    confidencePairs := [("foo", 1)], attributes := [] }

/-- Session with track 1 selected on `singleCam` (fixture for C1). -/
def c1World : World :=
  { st :=
      { selectedTrackId := some 1, selectedCamera := "singleCam", editingTrack := true,
        camMap := [("singleCam", [(1, c1Track)])], editing := "rectangle", selectedKey := "",
        mergeList := [], linkingState := false, linkingTrack := none, linkingCamera := "",
        creating := false, editingCanary := false, frame := 5, nextTrackId := 2,
        settings := baseSettings },
    prompts := [], preventInterrupts := 0, deactivations := [] }

/-- An input shape (fixture). -/
def c1Geo : GeoFeature := { gtype := "Polygon", coords := [(0, 0)] }

/-- A recipe that sets `newType` (fixture). -/
def c1RecipeA : Recipe :=
  { name := "A",
    update := fun _ _ _ _ _ =>
      { data := [], union := [], unionWithoutBounds := [],
        newType := some "Polygon", newSelectedKey := none, done := some true } }

/-- A second recipe that also sets `newType` (fixture). -/
def c1RecipeB : Recipe :=
  { name := "B",
    update := fun _ _ _ _ _ =>
      { data := [], union := [], unionWithoutBounds := [],
        newType := some "LineString", newSelectedKey := none, done := none } }

/-- C1 witness: two recipes both setting `newType` make the update throw and
leave the state untouched. -/
theorem C1_update_conflict_aborts_witness :
    ∃ name suffix, name ∈ ([c1RecipeA, c1RecipeB].map Recipe.name)
      ∧ handleUpdateGeoJSON c1World [c1RecipeA, c1RecipeB] "editing" 5 0 c1Geo none true
        = (c1World, some ("Recipe " ++ name ++ suffix)) :=
  C1_update_conflict_aborts c1World [c1RecipeA, c1RecipeB] "editing" 5 0 c1Geo none true
    1 c1Track (by decide) (by decide) (Or.inr (Or.inl (by decide)))

/-- A recipe that contributes nothing (fixture for C10). -/
def c10Recipe : Recipe :=
  { name := "E",
    update := fun _ _ _ _ _ =>
      { data := [], union := [], unionWithoutBounds := [],
        newType := none, newSelectedKey := none, done := none } }

/-- Session fixture for C10. -/
def c10World : World :=
  { st :=
      { selectedTrackId := some 1, selectedCamera := "singleCam", editingTrack := true,
        camMap := [("singleCam", [(1, c1Track)])], editing := "rectangle", selectedKey := "",
        mergeList := [], linkingState := false, linkingTrack := none, linkingCamera := "",
        creating := true, editingCanary := false, frame := 5, nextTrackId := 2,
        settings := baseSettings },
    prompts := [], preventInterrupts := 0, deactivations := [] }

/-- C10 witness: an all-empty recipe round leaves the camera map, canary,
creating flag and frame untouched (here under `eventType = "in-progress"`). -/
theorem C10_empty_update_no_write_witness :
    (handleUpdateGeoJSON c10World [c10Recipe] "in-progress" 5 0 c1Geo none
        true).1.st.camMap = c10World.st.camMap
    ∧ (handleUpdateGeoJSON c10World [c10Recipe] "in-progress" 5 0 c1Geo none
        true).1.st.editingCanary = c10World.st.editingCanary
    ∧ (handleUpdateGeoJSON c10World [c10Recipe] "in-progress" 5 0 c1Geo none
        true).1.st.creating = c10World.st.creating
    ∧ (handleUpdateGeoJSON c10World [c10Recipe] "in-progress" 5 0 c1Geo none
        true).1.st.frame = c10World.st.frame :=
  C10_empty_update_no_write c10World [c10Recipe] "in-progress" 5 0 c1Geo none true
    1 c1Track (by decide) (by decide) (by decide)

theorem newTrackSettingsAfterLogic_preserves (w : World) :
    (newTrackSettingsAfterLogic w).st.editing = w.st.editing
    ∧ (newTrackSettingsAfterLogic w).st.selectedKey = w.st.selectedKey
    ∧ (newTrackSettingsAfterLogic w).preventInterrupts = w.preventInterrupts
    ∧ (newTrackSettingsAfterLogic w).deactivations = w.deactivations
    ∧ (newTrackSettingsAfterLogic w).prompts = w.prompts := by
  unfold newTrackSettingsAfterLogic handleAddTrackOrDetection applySelectTrack addTrackCb
  split_ifs <;> simp

/-- C5 (amended): in a geometry update where at least one recipe contributed a
change, if no recipe set `newType` or `newSelectedKey` and a `preventInterrupt`
callback was supplied, the callback is invoked and the editing type, selected
key and recipe activations are left unchanged; otherwise the selected key and
editing type are updated to the values a recipe supplied (where supplied), and
a type change deactivates every recipe — including the recipe that changed the
type (the source does not exempt it). -/
theorem C5_update_mode_switch (w : World) (recipes : List Recipe) (eventType : String)
    (frameNum flickNum : Nat) (data : GeoFeature) (key : Option String)
    (hasPreventInterrupt : Bool) (tid : Nat) (track : Track) (u : UpdateAgg)
    (hsel : w.st.selectedTrackId = some tid)
    (htr : getPossibleTrack w.st.camMap tid w.st.selectedCamera = some track)
    (hfold : foldRecipesAux initAgg (recipeResults recipes eventType frameNum track data key)
      = Except.ok u)
    (hchanged : (!u.union.isEmpty || !u.unionWithoutBounds.isEmpty
      || !u.geoJsonFeatureRecord.isEmpty) = true) :
    (strTruthy u.newType = false → strTruthy u.newSelectedKey = false →
      hasPreventInterrupt = true →
      (handleUpdateGeoJSON w recipes eventType frameNum flickNum data key
          hasPreventInterrupt).1.preventInterrupts = w.preventInterrupts + 1
      ∧ (handleUpdateGeoJSON w recipes eventType frameNum flickNum data key
          hasPreventInterrupt).1.st.editing = w.st.editing
      ∧ (handleUpdateGeoJSON w recipes eventType frameNum flickNum data key
          hasPreventInterrupt).1.st.selectedKey = w.st.selectedKey
      ∧ (handleUpdateGeoJSON w recipes eventType frameNum flickNum data key
          hasPreventInterrupt).1.deactivations = w.deactivations)
    ∧ ((strTruthy u.newType = true ∨ strTruthy u.newSelectedKey = true
        ∨ hasPreventInterrupt = false) →
      (handleUpdateGeoJSON w recipes eventType frameNum flickNum data key
          hasPreventInterrupt).1.preventInterrupts = w.preventInterrupts
      ∧ (handleUpdateGeoJSON w recipes eventType frameNum flickNum data key
          hasPreventInterrupt).1.st.selectedKey
        = (if strTruthy u.newSelectedKey then u.newSelectedKey.getD "" else w.st.selectedKey)
      ∧ (handleUpdateGeoJSON w recipes eventType frameNum flickNum data key
          hasPreventInterrupt).1.st.editing
        = (if strTruthy u.newType then u.newType.getD "" else w.st.editing)
      ∧ (handleUpdateGeoJSON w recipes eventType frameNum flickNum data key
          hasPreventInterrupt).1.deactivations
        = w.deactivations
          ++ (if strTruthy u.newType then recipes.map Recipe.name else [])) := by
  constructor
  · intro hnt hnsk hpi
    simp only [handleUpdateGeoJSON, hsel, htr, hfold, hchanged, hnt, hnsk, hpi,
      Bool.not_false, Bool.true_and, Bool.and_true, if_true]
    split <;>
      simp [newTrackSettingsAfterLogic_preserves]
  · intro hcase
    have hcond : ((!u.union.isEmpty || !u.unionWithoutBounds.isEmpty
        || !u.geoJsonFeatureRecord.isEmpty) && !strTruthy u.newSelectedKey
        && !strTruthy u.newType && hasPreventInterrupt) = false := by
      rcases hcase with h | h | h <;> simp [h]
    simp only [handleUpdateGeoJSON, hsel, htr, hfold, hchanged, hcond, if_false,
      Bool.false_eq_true, if_true]
    cases hnt : strTruthy u.newType <;> cases hnsk : strTruthy u.newSelectedKey <;>
      simp only [hnt, hnsk, Bool.false_eq_true, if_true, if_false] <;>
      split <;>
      simp [newTrackSettingsAfterLogic_preserves] <;>
      (have hpi : hasPreventInterrupt = false := by
        rcases hcase with h | h | h
        · rw [h] at hnt; cases hnt
        · rw [h] at hnsk; cases hnsk
        · exact h
       simp [hpi])

/-- An input shape (fixture for C5). -/
def c5Geo : GeoFeature := { gtype := "Polygon", coords := [(1, 1), (2, 2)] }

/-- A single-frame track with no features (fixture for C5). -/
def c5Track : Track :=
  { trackId := 1, begin := 5, end_ := 5, features := [],
    confidencePairs := [("foo", 1)], attributes := [] }

/-- Session with track 1 selected on `singleCam` (fixture for C5). -/
def c5World : World :=
  { st :=
      { selectedTrackId := some 1, selectedCamera := "singleCam", editingTrack := true,
        camMap := [("singleCam", [(1, c5Track)])], editing := "rectangle", selectedKey := "",
        mergeList := [], linkingState := false, linkingTrack := none, linkingCamera := "",
        creating := false, editingCanary := false, frame := 5, nextTrackId := 2,
        settings := baseSettings },
    prompts := [], preventInterrupts := 0, deactivations := [] }

/-- The recipe that both contributes data and changes the type (fixture). -/
def c5RecipeA : Recipe :=
  { name := "A",
    update := fun _ _ _ _ _ =>
      { data := [("ak", [c5Geo])], union := [], unionWithoutBounds := [],
        newType := some "Polygon", newSelectedKey := none, done := some true } }

/-- A recipe that contributes nothing (fixture for C5). -/
def c5RecipeB : Recipe :=
  { name := "B",
    update := fun _ _ _ _ _ =>
      { data := [], union := [], unionWithoutBounds := [],
        newType := none, newSelectedKey := none, done := none } }

/-- The aggregate the fold produces on the C5 fixture. -/
def c5Agg : UpdateAgg :=
  { geoJsonFeatureRecord := [("ak", [c5Geo])], union := [], unionWithoutBounds := [],
    newType := some "Polygon", newSelectedKey := none, done := [some true, none] }

/-- C5 counterexample: recipe "A" is the one that changed the type, yet it also
receives a `deactivate()` call — the code deactivates every recipe, so the
claim's "all recipes are deactivated except the one that changed the type"
(which would demand `["B"]`) is false on the code. -/
theorem C5_counterexample :
    (handleUpdateGeoJSON c5World [c5RecipeA, c5RecipeB] "in-progress" 5 0 c5Geo none
        true).1.deactivations = ["A", "B"]
    ∧ (handleUpdateGeoJSON c5World [c5RecipeA, c5RecipeB] "in-progress" 5 0 c5Geo none
        true).1.deactivations ≠ ["B"] := by
  decide

/-- C5 witness: on the fixture, the type change deactivates the full recipe
list (and the amended theorem applies with every hypothesis discharged). -/
theorem C5_update_mode_switch_witness :
    (handleUpdateGeoJSON c5World [c5RecipeA, c5RecipeB] "in-progress" 5 0 c5Geo none
        true).1.deactivations
      = c5World.deactivations
        ++ (if strTruthy c5Agg.newType then [c5RecipeA, c5RecipeB].map Recipe.name else []) :=
  ((C5_update_mode_switch c5World [c5RecipeA, c5RecipeB] "in-progress" 5 0 c5Geo none true
      1 c5Track c5Agg (by decide) (by decide) rfl (by decide)).2
    (Or.inl (by decide))).2.2.2

theorem isEmpty_false_of_ne_nil {α : Type} (l : List α) (h : l ≠ []) : l.isEmpty = false := by
  cases l with
  | nil => exact absurd rfl h
  | cons a as => rfl

/-- C2 (amended): selecting a non-null id while merge mode is active (merge list
non-empty) adds the id to the merge candidate list (the list is deduplicated
and the id appended when not already present) and suppresses editing, but the
call does not return early and the selection is not preserved: the normal
selection is still applied with editing off, moving the selection to the id. -/
theorem C2_select_during_merge (w : World) (tid : Nat) (edit : Bool)
    (hmerge : w.st.mergeList ≠ []) :
    (handleSelectTrack w (some tid) edit).st.mergeList = jsSetAdd w.st.mergeList tid
    ∧ (handleSelectTrack w (some tid) edit).st.selectedTrackId = some tid
    ∧ (handleSelectTrack w (some tid) edit).st.editingTrack = false
    ∧ (handleSelectTrack w (some tid) edit).prompts = w.prompts
    ∧ (tid ∉ w.st.mergeList →
        (handleSelectTrack w (some tid) edit).st.mergeList
          = jsSetList w.st.mergeList ++ [tid]) := by
  have h1 : w.st.mergeList.isEmpty = false := isEmpty_false_of_ne_nil _ hmerge
  have h2 : (jsSetAdd w.st.mergeList tid).isEmpty = false :=
    isEmpty_false_of_ne_nil _ (jsSetAdd_ne_nil _ _)
  simp only [handleSelectTrack, applySelectTrack, h1, h2, Bool.and_false, Bool.not_false,
    Bool.false_eq_true, if_false]
  refine ⟨rfl, rfl, rfl, rfl, ?_⟩
  intro hnot
  exact jsSetAdd_append_of_not_mem _ _ hnot

/-- Two single-frame tracks (fixture for C2). -/
def c2TrackA : Track :=
  { trackId := 1, begin := 5, end_ := 5, features := [],
    confidencePairs := [("foo", 1)], attributes := [] }

/-- Second track (fixture for C2). -/
def c2TrackB : Track :=
  { trackId := 2, begin := 7, end_ := 7, features := [],
    confidencePairs := [("foo", 1)], attributes := [] }

/-- Merge pending on track 1, track 1 selected (fixture for C2). -/
def c2World : World :=
  { st :=
      { selectedTrackId := some 1, selectedCamera := "singleCam", editingTrack := false,
        camMap := [("singleCam", [(1, c2TrackA), (2, c2TrackB)])], editing := "rectangle",
        selectedKey := "", mergeList := [1], linkingState := false, linkingTrack := none,
        linkingCamera := "", creating := false, editingCanary := false, frame := 5,
        nextTrackId := 3, settings := baseSettings },
    prompts := [], preventInterrupts := 0, deactivations := [] }

/-- C2 counterexample: with merge pending on track 1 and track 1 selected,
clicking track 2 changes the selection to track 2 (the claim says the selection
is unchanged and the call returns early). -/
theorem C2_counterexample :
    (handleSelectTrack c2World (some 2) true).st.selectedTrackId = some 2
    ∧ c2World.st.selectedTrackId = some 1
    ∧ some 2 ≠ c2World.st.selectedTrackId := by
  decide

/-- C2 witness: the amended statement evaluated on the fixture. -/
theorem C2_select_during_merge_witness :
    (handleSelectTrack c2World (some 2) true).st.mergeList = jsSetAdd c2World.st.mergeList 2
    ∧ (handleSelectTrack c2World (some 2) true).st.selectedTrackId = some 2
    ∧ (handleSelectTrack c2World (some 2) true).st.editingTrack = false
    ∧ (handleSelectTrack c2World (some 2) true).prompts = c2World.prompts
    ∧ (2 ∉ c2World.st.mergeList →
        (handleSelectTrack c2World (some 2) true).st.mergeList
          = jsSetList c2World.st.mergeList ++ [2]) :=
  C2_select_during_merge c2World 2 true (by decide)

theorem escapeFinish_fields (w1 : World) :
    (handleSelectTrack { w1 with st := { w1.st with
        linkingState := false, linkingCamera := "", linkingTrack := none, mergeList := [] } }
      none false).st.selectedTrackId = none
    ∧ (handleSelectTrack { w1 with st := { w1.st with
        linkingState := false, linkingCamera := "", linkingTrack := none, mergeList := [] } }
      none false).st.editingTrack = false
    ∧ (handleSelectTrack { w1 with st := { w1.st with
        linkingState := false, linkingCamera := "", linkingTrack := none, mergeList := [] } }
      none false).st.mergeList = []
    ∧ (handleSelectTrack { w1 with st := { w1.st with
        linkingState := false, linkingCamera := "", linkingTrack := none, mergeList := [] } }
      none false).st.linkingState = false
    ∧ (handleSelectTrack { w1 with st := { w1.st with
        linkingState := false, linkingCamera := "", linkingTrack := none, mergeList := [] } }
      none false).st.linkingCamera = ""
    ∧ (handleSelectTrack { w1 with st := { w1.st with
        linkingState := false, linkingCamera := "", linkingTrack := none, mergeList := [] } }
      none false).st.linkingTrack = none
    ∧ (handleSelectTrack { w1 with st := { w1.st with
        linkingState := false, linkingCamera := "", linkingTrack := none, mergeList := [] } }
      none false).st.camMap = w1.st.camMap
    ∧ (handleSelectTrack { w1 with st := { w1.st with
        linkingState := false, linkingCamera := "", linkingTrack := none, mergeList := [] } }
      none false).prompts = w1.prompts := by
  simp [handleSelectTrack, applySelectTrack]

/-- C3: `handleEscapeMode` never throws, clears linking state, merge state and
the selection, and — when the selected track on the current camera has a
single-frame range (`begin = end`) with no feature at that frame — removes that
track from the current camera's map, while any other selected track leaves the
camera map untouched. -/
theorem C3_escape_clears_and_prunes (w : World) :
    (handleEscapeMode w).2 = none
    ∧ (handleEscapeMode w).1.st.linkingState = false
    ∧ (handleEscapeMode w).1.st.linkingCamera = ""
    ∧ (handleEscapeMode w).1.st.linkingTrack = none
    ∧ (handleEscapeMode w).1.st.mergeList = []
    ∧ (handleEscapeMode w).1.st.selectedTrackId = none
    ∧ (handleEscapeMode w).1.st.editingTrack = false
    ∧ (∀ tid track, w.st.selectedTrackId = some tid →
        getPossibleTrack w.st.camMap tid w.st.selectedCamera = some track →
        ((track.begin = track.end_ ∧ alistLookup track.features track.begin = none) →
          getPossibleTrack (handleEscapeMode w).1.st.camMap tid w.st.selectedCamera = none)
        ∧ (¬(track.begin = track.end_ ∧ alistLookup track.features track.begin = none) →
          (handleEscapeMode w).1.st.camMap = w.st.camMap)) := by
  cases hsel : w.st.selectedTrackId with
  | none =>
    have hE : handleEscapeMode w
        = (handleSelectTrack { w with st := { w.st with
            linkingState := false, linkingCamera := "", linkingTrack := none,
            mergeList := [] } } none false, none) := by
      simp only [handleEscapeMode, hsel]
    rw [hE]
    obtain ⟨f1, f2, f3, f4, f5, f6, f7, f8⟩ := escapeFinish_fields w
    refine ⟨rfl, f4, f5, f6, f3, f1, f2, ?_⟩
    intro tid track hsel2
    cases hsel2
  | some tid =>
    cases htr : getPossibleTrack w.st.camMap tid w.st.selectedCamera with
    | none =>
      have hE : handleEscapeMode w
          = (handleSelectTrack { w with st := { w.st with
              linkingState := false, linkingCamera := "", linkingTrack := none,
              mergeList := [] } } none false, none) := by
        simp only [handleEscapeMode, hsel, htr]
      rw [hE]
      obtain ⟨f1, f2, f3, f4, f5, f6, f7, f8⟩ := escapeFinish_fields w
      refine ⟨rfl, f4, f5, f6, f3, f1, f2, ?_⟩
      intro tid' track' hsel2 htr2
      cases hsel2
      rw [htr] at htr2
      cases htr2
    | some track =>
      by_cases hbe : track.begin = track.end_
      · cases hfeat : alistLookup track.features track.begin with
        | some f =>
          have hfeat2 := hfeat
          rw [hbe] at hfeat2
          have hE : handleEscapeMode w
              = (handleSelectTrack { w with st := { w.st with
                  linkingState := false, linkingCamera := "", linkingTrack := none,
                  mergeList := [] } } none false, none) := by
            simp only [handleEscapeMode, hsel, htr, hbe, if_true, Track.getFeature]
            simp [List.filter, hfeat2, hsel]
          rw [hE]
          obtain ⟨f1, f2, f3, f4, f5, f6, f7, f8⟩ := escapeFinish_fields w
          refine ⟨rfl, f4, f5, f6, f3, f1, f2, ?_⟩
          intro tid' track' hsel2 htr2
          cases hsel2
          rw [htr] at htr2
          cases htr2
          constructor
          · rintro ⟨-, hcontra⟩
            rw [hfeat] at hcontra
            cases hcontra
          · intro _
            exact f7
        | none =>
          have hremove : ∃ m1, removeTrackCb w.st.camMap tid w.st.selectedCamera
              = Except.ok m1
              ∧ getPossibleTrack m1 tid w.st.selectedCamera = none := by
            by_cases hcam : w.st.selectedCamera = ""
            · rw [hcam] at htr ⊢
              have hne := getTrackAll_ne_nil_of_getPossibleTrack _ _ _ _ htr
              refine ⟨camMapRemoveAll w.st.camMap tid, ?_, ?_⟩
              · simp [removeTrackCb, isEmpty_false_of_ne_nil _ hne]
              · exact getPossibleTrack_camMapRemoveAll_self _ _ _
            · refine ⟨camMapRemoveCam w.st.camMap tid w.st.selectedCamera, ?_, ?_⟩
              · simp [removeTrackCb, hcam, htr]
              · exact getPossibleTrack_camMapRemoveCam_self _ _ _
          obtain ⟨m1, hm1, hm1none⟩ := hremove
          have hfeat2 := hfeat
          rw [hbe] at hfeat2
          have hE : handleEscapeMode w
              = (handleSelectTrack { { w with st := { w.st with camMap := m1 } } with
                  st := { { w with st := { w.st with camMap := m1 } }.st with
                    linkingState := false, linkingCamera := "", linkingTrack := none,
                    mergeList := [] } } none false, none) := by
            simp only [handleEscapeMode, hsel, htr, hbe, if_true, Track.getFeature]
            simp [List.filter, hfeat2, hm1, hsel]
          rw [hE]
          obtain ⟨f1, f2, f3, f4, f5, f6, f7, f8⟩ :=
            escapeFinish_fields { w with st := { w.st with camMap := m1 } }
          refine ⟨rfl, f4, f5, f6, f3, f1, f2, ?_⟩
          intro tid' track' hsel2 htr2
          cases hsel2
          rw [htr] at htr2
          cases htr2
          constructor
          · intro _
            rw [f7]
            exact hm1none
          · intro hcontra
            exact absurd ⟨hbe, hfeat⟩ hcontra
      · have hE : handleEscapeMode w
            = (handleSelectTrack { w with st := { w.st with
                linkingState := false, linkingCamera := "", linkingTrack := none,
                mergeList := [] } } none false, none) := by
          simp only [handleEscapeMode, hsel, htr, hbe, if_false]
        rw [hE]
        obtain ⟨f1, f2, f3, f4, f5, f6, f7, f8⟩ := escapeFinish_fields w
        refine ⟨rfl, f4, f5, f6, f3, f1, f2, ?_⟩
        intro tid' track' hsel2 htr2
        cases hsel2
        rw [htr] at htr2
        cases htr2
        constructor
        · rintro ⟨hcontra, -⟩
          exact absurd hcontra hbe
        · intro _
          exact f7

/-- An empty single-frame track (fixture for C3). -/
def c3Track : Track :=
  { trackId := 1, begin := 5, end_ := 5, features := [],
    confidencePairs := [("foo", 1)], attributes := [] }

/-- Session with merge and linking state pending and empty track 1 selected
(fixture for C3). -/
def c3World : World :=
  { st :=
      { selectedTrackId := some 1, selectedCamera := "singleCam", editingTrack := true,
        camMap := [("singleCam", [(1, c3Track)])], editing := "rectangle", selectedKey := "",
        mergeList := [4], linkingState := true, linkingTrack := some 9,
        linkingCamera := "other", creating := false, editingCanary := false, frame := 5,
        nextTrackId := 2, settings := baseSettings },
    prompts := [], preventInterrupts := 0, deactivations := [] }

/-- C3 witness: escape on the fixture clears merge/linking/selection and removes
the empty selected track from the camera map. -/
theorem C3_escape_clears_and_prunes_witness :
    (handleEscapeMode c3World).2 = none
    ∧ (handleEscapeMode c3World).1.st.linkingState = false
    ∧ (handleEscapeMode c3World).1.st.mergeList = []
    ∧ (handleEscapeMode c3World).1.st.selectedTrackId = none
    ∧ getPossibleTrack (handleEscapeMode c3World).1.st.camMap 1
        c3World.st.selectedCamera = none :=
  have h := C3_escape_clears_and_prunes c3World
  ⟨h.1, h.2.1, h.2.2.2.2.1, h.2.2.2.2.2.1,
    (h.2.2.2.2.2.2.2 1 c3Track rfl rfl).1 ⟨rfl, rfl⟩⟩

/-- C6 (amended): offering a non-null id while linking is active and no merge is
pending resolves the link target with an early return (selection and editing
unchanged): an id on more than one camera surfaces a blocking "Linking Error"
prompt and leaves the target unchanged; an id on at most one camera — including
an id on no camera at all — is stored as the link target. -/
theorem C6_resolve_link (w : World) (tid : Nat) (edit : Bool)
    (hlink : w.st.linkingState = true) (hmerge : w.st.mergeList = []) :
    (1 < (getTrackAll w.st.camMap tid).length →
      (handleSelectTrack w (some tid) edit).st.linkingTrack = w.st.linkingTrack
      ∧ (handleSelectTrack w (some tid) edit).prompts = w.prompts ++ ["Linking Error"]
      ∧ (handleSelectTrack w (some tid) edit).st.selectedTrackId = w.st.selectedTrackId
      ∧ (handleSelectTrack w (some tid) edit).st.editingTrack = w.st.editingTrack)
    ∧ ((getTrackAll w.st.camMap tid).length ≤ 1 →
      (handleSelectTrack w (some tid) edit).st.linkingTrack = some tid
      ∧ (handleSelectTrack w (some tid) edit).prompts = w.prompts
      ∧ (handleSelectTrack w (some tid) edit).st.selectedTrackId = w.st.selectedTrackId
      ∧ (handleSelectTrack w (some tid) edit).st.editingTrack = w.st.editingTrack) := by
  have h1 : w.st.mergeList.isEmpty = true := by rw [hmerge]; rfl
  constructor
  · intro hgt
    simp [handleSelectTrack, setLinkingTrack, h1, hlink, hgt]
  · intro hle
    simp [handleSelectTrack, setLinkingTrack, h1, hlink, Nat.not_lt.mpr hle]

/-- Linking active with two cameras holding track 7 and no track 5 anywhere
(fixture for C6). -/
def c6World : World :=
  { st :=
      { selectedTrackId := some 1, selectedCamera := "a", editingTrack := false,
        camMap := [("a", [(7, c3Track)]), ("b", [(7, c3Track)])], editing := "rectangle",
        selectedKey := "", mergeList := [], linkingState := true, linkingTrack := none,
        linkingCamera := "b", creating := false, editingCanary := false, frame := 5,
        nextTrackId := 8, settings := baseSettings },
    prompts := [], preventInterrupts := 0, deactivations := [] }

/-- C6 counterexample: id 5 exists on no camera, yet it is stored as the link
target — the claim's "stored if and only if the id exists on exactly one
camera" fails in the only-if direction. -/
theorem C6_counterexample :
    getTrackAll c6World.st.camMap 5 = []
    ∧ (handleSelectTrack c6World (some 5) false).st.linkingTrack = some 5 := by
  decide

/-- C6 witness: id 7 exists on two cameras, so the prompt fires and the target
stays unchanged. -/
theorem C6_resolve_link_witness :
    (handleSelectTrack c6World (some 7) false).st.linkingTrack = c6World.st.linkingTrack
    ∧ (handleSelectTrack c6World (some 7) false).prompts
      = c6World.prompts ++ ["Linking Error"]
    ∧ (handleSelectTrack c6World (some 7) false).st.selectedTrackId
      = c6World.st.selectedTrackId
    ∧ (handleSelectTrack c6World (some 7) false).st.editingTrack
      = c6World.st.editingTrack :=
  (C6_resolve_link c6World 7 false (by decide) (by decide)).1 (by decide)

/-- C7 (amended): `handleStartLinking` when linking is not active: with no
selection it throws and leaves the state unchanged; with a selection and an
unknown camera it throws only after setting the linking-active flag to `true`
(linking camera and target are left unchanged — the failing call does mutate
the flag); with a selection and a known camera it succeeds, setting the flag
and the camera. -/
theorem C7_start_linking (w : World) (camera : String)
    (hnolink : w.st.linkingState = false) :
    (w.st.selectedTrackId = none →
      handleStartLinking w camera = (w, some "Cannot start Linking without a track selected"))
    ∧ (∀ tid, w.st.selectedTrackId = some tid → camMapHas w.st.camMap camera = false →
      handleStartLinking w camera
        = ({ w with st := { w.st with linkingState := true } },
            some ("Camera: " ++ camera ++ " does not exist in the system for linking")))
    ∧ (∀ tid, w.st.selectedTrackId = some tid → camMapHas w.st.camMap camera = true →
      handleStartLinking w camera
        = ({ w with st := { w.st with linkingState := true, linkingCamera := camera } },
            none)) := by
  refine ⟨?_, ?_, ?_⟩
  · intro hsel
    simp [handleStartLinking, hnolink, hsel]
  · intro tid hsel hcam
    simp [handleStartLinking, hnolink, hsel, hcam]
  · intro tid hsel hcam
    simp [handleStartLinking, hnolink, hsel, hcam]

/-- Linking inactive, track 1 selected, one camera (fixture for C7). -/
def c7World : World :=
  { st :=
      { selectedTrackId := some 1, selectedCamera := "singleCam", editingTrack := false,
        camMap := [("singleCam", [(1, c3Track)])], editing := "rectangle", selectedKey := "",
        mergeList := [], linkingState := false, linkingTrack := none, linkingCamera := "",
        creating := false, editingCanary := false, frame := 5, nextTrackId := 2,
        settings := baseSettings },
    prompts := [], preventInterrupts := 0, deactivations := [] }

/-- C7 counterexample: starting linking toward an unknown camera throws, but the
failing call flips the linking-active flag from `false` to `true` — the state is
not left unchanged. -/
theorem C7_counterexample :
    (handleStartLinking c7World "X").2.isSome = true
    ∧ (handleStartLinking c7World "X").1.st.linkingState = true
    ∧ c7World.st.linkingState = false := by
  decide

/-- C7 witness: the amended statement on the fixture (unknown-camera branch). -/
theorem C7_start_linking_witness :
    handleStartLinking c7World "X"
      = ({ c7World with st := { c7World.st with linkingState := true } },
          some ("Camera: " ++ "X" ++ " does not exist in the system for linking")) :=
  (C7_start_linking c7World "X" rfl).2.1 1 rfl (by decide)

/-- C8 (spec-modelled): `getTrack(id, camera)` fails with the `NotFound` message
naming both the id and the camera exactly when no track with that id exists on
that camera, and returns the track when it exists.  The message format is the
one asserted by `useTrackStore.spec.ts`. -/
theorem C8_getTrack_notFound (camMap : CamMap) (trackId : Nat) (cameraName : String) :
    (getPossibleTrack camMap trackId cameraName = none →
      getTrack camMap trackId cameraName
        = Except.error ("TrackId " ++ toString trackId
            ++ " not found in trackMap with cameraName " ++ cameraName))
    ∧ (∀ t, getPossibleTrack camMap trackId cameraName = some t →
      getTrack camMap trackId cameraName = Except.ok t) := by
  constructor
  · intro h
    simp [getTrack, h]
  · intro t h
    simp [getTrack, h]

/-- C8 witness: the exact scenario of the store test — looking up id 0 on
`singleCam` in a store without it produces the test's error string, and after
the track exists it is returned. -/
theorem C8_getTrack_notFound_witness :
    getTrack [("singleCam", ([] : List (Nat × Track)))] 0 "singleCam"
      = Except.error "TrackId 0 not found in trackMap with cameraName singleCam"
    ∧ getTrack [("singleCam", [(0, c1Track)])] 0 "singleCam" = Except.ok c1Track :=
  ⟨((C8_getTrack_notFound [("singleCam", [])] 0 "singleCam").1 rfl).trans (by rfl),
    (C8_getTrack_notFound [("singleCam", [(0, c1Track)])] 0 "singleCam").2 c1Track rfl⟩

/-- Store invariant: the interval index holds exactly one entry per stored
track, matching its frame range, and every stored key is below the id counter. -/
def StoreInv (s : TrackStore) : Prop :=
  (∀ be en trackId, (be, en, trackId) ∈ s.intervalTree
    ↔ ∃ t, alistLookup s.tracks trackId = some t ∧ t.begin = be ∧ t.end_ = en)
  ∧ (∀ p ∈ s.tracks, p.1 < s.trackIds)

theorem storeInv_empty : StoreInv emptyStore := by
  constructor
  · intro be en trackId
    simp [emptyStore, alistLookup]
  · intro p hp
    simp [emptyStore] at hp

theorem alistLookup_none_of_keys_lt {β : Type} (l : List (Nat × β)) (c : Nat)
    (h : ∀ p ∈ l, p.1 < c) : alistLookup l c = none := by
  induction l with
  | nil => rfl
  | cons p rest ih =>
    have hp := h p (List.mem_cons_self _ _)
    have hne : ¬ p.1 = c := Nat.ne_of_lt hp
    simp only [alistLookup, hne, if_neg, not_false_iff]
    exact ih (fun q hq => h q (List.mem_cons_of_mem _ hq))

theorem alistLookup_filter_ne_key {β : Type} (l : List (Nat × β)) (k k' : Nat) :
    alistLookup (l.filter (fun p => !(p.1 == k))) k'
      = if k' = k then none else alistLookup l k' := by
  induction l with
  | nil => simp [alistLookup]
  | cons p rest ih =>
    by_cases hp : p.1 = k
    · have : (!(p.1 == k)) = false := by simp [hp]
      rw [List.filter_cons_of_neg (by simp [hp])]
      rw [ih]
      by_cases hk : k' = k
      · simp [hk]
      · have hpk : ¬ p.1 = k' := by rw [hp]; exact fun hh => hk hh.symm
        simp [hk, alistLookup, hpk]
    · rw [List.filter_cons_of_pos (by simp [hp])]
      by_cases hpk : p.1 = k'
      · have hk : ¬ k' = k := by rw [← hpk]; exact fun hh => hp hh
        simp [alistLookup, hpk, hk]
      · simp only [alistLookup, hpk, if_neg, not_false_iff]
        exact ih

theorem storeInv_add (s : TrackStore) (frame : Nat) (trackType : String) (h : StoreInv s) :
    StoreInv (addTrackStore s frame trackType) := by
  obtain ⟨hidx, hbound⟩ := h
  have hfresh : alistLookup s.tracks s.trackIds = none :=
    alistLookup_none_of_keys_lt _ _ hbound
  constructor
  · intro be en trackId
    simp only [addTrackStore, List.mem_append, List.mem_singleton]
    constructor
    · rintro (hmem | heq)
      · obtain ⟨t, ht, hb, he⟩ := (hidx be en trackId).mp hmem
        refine ⟨t, ?_, hb, he⟩
        rw [alistLookup_append, ht]
      · rw [Prod.mk.injEq, Prod.mk.injEq] at heq
        obtain ⟨hbe, hen, hid⟩ := heq
        refine ⟨Track.mk s.trackIds frame frame [] [(trackType, 1)] [],
          ?_, hbe.symm, hen.symm⟩
        rw [hid, alistLookup_append, hfresh]
        simp [alistLookup]
    · rintro ⟨t, ht, hb, he⟩
      rw [alistLookup_append] at ht
      cases hl : alistLookup s.tracks trackId with
      | some v =>
        rw [hl] at ht
        cases ht
        exact Or.inl ((hidx be en trackId).mpr ⟨t, hl, hb, he⟩)
      | none =>
        rw [hl] at ht
        simp only [alistLookup] at ht
        by_cases hc : s.trackIds = trackId
        · rw [if_pos hc] at ht
          cases ht
          subst hc
          right
          rw [← hb, ← he]
        · rw [if_neg hc] at ht
          cases ht
  · intro p hp
    simp only [addTrackStore, List.mem_append, List.mem_singleton] at hp
    rcases hp with hp | hp
    · exact Nat.lt_succ_of_lt (hbound p hp)
    · rw [hp]
      exact Nat.lt_succ_self _

theorem storeInv_remove (s : TrackStore) (trackId : Nat) (h : StoreInv s) :
    StoreInv (removeTrackStore s trackId) := by
  obtain ⟨hidx, hbound⟩ := h
  rw [removeTrackStore]
  by_cases hl : (alistLookup s.tracks trackId).isSome
  · rw [if_pos hl]
    constructor
    · intro be en trackId'
      constructor
      · intro hmem
        rcases List.mem_filter.mp hmem with ⟨hmem1, hmem2⟩
        have hne : trackId' ≠ trackId := by
          intro hcontra
          rw [hcontra] at hmem2
          simp at hmem2
        obtain ⟨t, ht, hb, he⟩ := (hidx be en trackId').mp hmem1
        refine ⟨t, ?_, hb, he⟩
        rw [alistLookup_filter_ne_key, if_neg hne]
        exact ht
      · rintro ⟨t, ht, hb, he⟩
        rw [alistLookup_filter_ne_key] at ht
        by_cases hne : trackId' = trackId
        · rw [if_pos hne] at ht
          cases ht
        · rw [if_neg hne] at ht
          refine List.mem_filter.mpr ⟨(hidx be en trackId').mpr ⟨t, ht, hb, he⟩, ?_⟩
          simp [hne]
    · intro p hp
      exact hbound p (List.mem_of_mem_filter hp)
  · rw [if_neg hl]
    exact ⟨hidx, hbound⟩

theorem storeInv_applyOps (ops : List StoreOp) :
    ∀ s : TrackStore, StoreInv s → StoreInv (applyOps s ops) := by
  induction ops with
  | nil => intro s h; exact h
  | cons op rest ih =>
    intro s h
    rw [applyOps]
    cases op with
    | add frame trackType => exact ih _ (storeInv_add s frame trackType h)
    | remove trackId => exact ih _ (storeInv_remove s trackId h)

theorem queryInterval_exact_of_inv (s : TrackStore) (h : StoreInv s) (a b trackId : Nat) :
    trackId ∈ queryInterval s a b
    ↔ ∃ t, alistLookup s.tracks trackId = some t ∧ t.begin ≤ b ∧ a ≤ t.end_ := by
  rw [queryInterval]
  constructor
  · intro hm
    rcases List.mem_map.mp hm with ⟨e, he, heq⟩
    rcases List.mem_filter.mp he with ⟨he1, he2⟩
    have he1' : (e.1, e.2.1, e.2.2) ∈ s.intervalTree := by
      simpa using he1
    obtain ⟨t, ht, hb, hn⟩ := (h.1 e.1 e.2.1 e.2.2).mp he1'
    rw [heq] at ht
    refine ⟨t, ht, ?_, ?_⟩
    · rw [hb]
      exact (of_decide_eq_true he2).1
    · rw [hn]
      exact (of_decide_eq_true he2).2
  · rintro ⟨t, ht, h1, h2⟩
    have hmem := (h.1 t.begin t.end_ trackId).mpr ⟨t, ht, rfl, rfl⟩
    refine List.mem_map.mpr ⟨(t.begin, t.end_, trackId), List.mem_filter.mpr ⟨hmem, ?_⟩, rfl⟩
    exact decide_eq_true ⟨h1, h2⟩

/-- C9 (spec-modelled): after any sequence of `addTrack`/`removeTrack`
operations from the empty store, `queryInterval [a,b]` returns a track id
exactly when a track with that id is currently present and its inclusive
`[begin, end]` range intersects `[a, b]` — each mutation keeps the interval
index exactly in sync with the map. -/
theorem C9_queryInterval_exact (ops : List StoreOp) (a b trackId : Nat) :
    trackId ∈ queryInterval (applyOps emptyStore ops) a b
    ↔ ∃ t, alistLookup (applyOps emptyStore ops).tracks trackId = some t
        ∧ t.begin ≤ b ∧ a ≤ t.end_ :=
  queryInterval_exact_of_inv _ (storeInv_applyOps ops emptyStore storeInv_empty) a b trackId

theorem getTracksExc_ok_mem (camMap : CamMap) (cameraName : String) :
    ∀ (ids : List Nat) (ts : List Track), getTracksExc camMap cameraName ids = Except.ok ts →
    ∀ trackId ∈ ids, ∃ t, getPossibleTrack camMap trackId cameraName = some t := by
  intro ids
  induction ids with
  | nil => intro ts _ trackId hmem; cases hmem
  | cons i rest ih =>
    intro ts h trackId hmem
    rw [getTracksExc] at h
    cases hg : getTrack camMap i cameraName with
    | error e => rw [hg] at h; cases h
    | ok t =>
      rw [hg] at h
      cases hrest : getTracksExc camMap cameraName rest with
      | error e => rw [hrest] at h; cases h
      | ok ts2 =>
        rcases List.mem_cons.mp hmem with hmem1 | hmem1
        · subst hmem1
          refine ⟨t, ?_⟩
          rw [getTrack] at hg
          cases hp : getPossibleTrack camMap trackId cameraName with
          | none => rw [hp] at hg; cases hg
          | some t2 => rw [hp] at hg; cases hg; rfl
        · exact ih ts2 hrest trackId hmem1

theorem removeTracksFold_all (ids : List Nat) :
    ∀ m : CamMap, ids.Nodup →
    (∀ trackId ∈ ids, getTrackAll m trackId ≠ []) →
    (removeTracksFold m "" ids).2 = none
    ∧ (∀ trackId ∈ ids, getTrackAll (removeTracksFold m "" ids).1 trackId = [])
    ∧ (∀ trackId, trackId ∉ ids →
        (∀ cam, getPossibleTrack (removeTracksFold m "" ids).1 trackId cam
          = getPossibleTrack m trackId cam)
        ∧ getTrackAll (removeTracksFold m "" ids).1 trackId = getTrackAll m trackId) := by
  induction ids with
  | nil =>
    intro m _ _
    refine ⟨rfl, ?_, ?_⟩
    · intro t ht; cases ht
    · intro t _; exact ⟨fun cam => rfl, rfl⟩
  | cons i rest ih =>
    intro m hnd hex
    have hne := hex i (List.mem_cons_self _ _)
    have hcb : removeTrackCb m i "" = Except.ok (camMapRemoveAll m i) := by
      simp [removeTrackCb, isEmpty_false_of_ne_nil _ hne]
    have hnotmem : i ∉ rest := (List.nodup_cons.mp hnd).1
    have hndr : rest.Nodup := (List.nodup_cons.mp hnd).2
    have hex2 : ∀ trackId ∈ rest, getTrackAll (camMapRemoveAll m i) trackId ≠ [] := by
      intro t ht
      have hti : t ≠ i := fun hcontra => hnotmem (hcontra ▸ ht)
      rw [getTrackAll_camMapRemoveAll_ne _ _ _ hti]
      exact hex t (List.mem_cons_of_mem _ ht)
    obtain ⟨h1, h2, h3⟩ := ih (camMapRemoveAll m i) hndr hex2
    have hstep : removeTracksFold m "" (i :: rest)
        = removeTracksFold (camMapRemoveAll m i) "" rest := by
      simp only [removeTracksFold, hcb]
    rw [hstep]
    refine ⟨h1, ?_, ?_⟩
    · intro t ht
      rcases List.mem_cons.mp ht with hcase | hcase
      · subst hcase
        rw [(h3 t hnotmem).2]
        exact getTrackAll_camMapRemoveAll_self _ _
      · exact h2 t hcase
    · intro t ht
      have hti : t ≠ i := fun hcontra => ht (by rw [hcontra]; exact List.mem_cons_self _ _)
      have htr : t ∉ rest := fun hcontra => ht (List.mem_cons_of_mem _ hcontra)
      obtain ⟨hp, hall⟩ := h3 t htr
      constructor
      · intro cam
        rw [hp cam, getPossibleTrack_camMapRemoveAll_ne _ _ _ _ hti]
      · rw [hall, getTrackAll_camMapRemoveAll_ne _ _ _ hti]

theorem filter_not_contains_nil (l2 : List Nat) :
    ∀ l : List Nat, (∀ x ∈ l, x ∈ l2) → l.filter (fun x => !l2.contains x) = [] := by
  intro l
  induction l with
  | nil => intro _; rfl
  | cons x xs ih =>
    intro h
    have hmm : x ∈ l2 := h x (List.mem_cons_self x xs)
    rw [List.filter_cons_of_neg (by simp [hmm])]
    exact ih (fun y hy => h y (List.mem_cons_of_mem _ hy))

theorem filter_merge_first (first : Nat) (rest : List Nat) (h : first ∉ rest) :
    (first :: rest).filter (fun x => !rest.contains x) = [first] := by
  rw [List.filter_cons_of_pos (by simp [h])]
  rw [filter_not_contains_nil rest rest (fun x hxx => hxx)]

theorem handleRemoveTrack_force (w0 : World) (selectNext : Int → Option Nat)
    (ids : List Nat) (M2 : CamMap)
    (hfold : removeTracksFold w0.st.camMap "" ids = (M2, none)) :
    (handleRemoveTrack w0 selectNext ids true "" true).1
      = { w0 with
            st := applySelectTrack
                { w0.st with
                    camMap := M2,
                    mergeList := w0.st.mergeList.filter
                        (fun trackId => !ids.contains trackId) }
                (match selectNext 1 with
                  | some x => some x
                  | none => selectNext (-1))
                false }
    ∧ (handleRemoveTrack w0 selectNext ids true "" true).2 = none := by
  simp only [handleRemoveTrack, handleUnstageFromMerge, hfold, Bool.not_true, Bool.false_and,
    Bool.false_eq_true, if_false, if_pos]
  constructor <;> trivial

theorem handleToggleMerge_clears (w0 : World) (h : w0.st.mergeList ≠ []) :
    handleToggleMerge w0 = { w0 with st := { w0.st with mergeList := [] } } := by
  rw [handleToggleMerge]
  cases hsel : w0.st.selectedTrackId with
  | none => rfl
  | some sel =>
    simp [isEmpty_false_of_ne_nil _ h]

theorem handleSelectTrack_some_normal (w0 : World) (tid : Nat)
    (hm : w0.st.mergeList = []) (hl : w0.st.linkingState = false) :
    handleSelectTrack w0 (some tid) false
      = { w0 with
            st := { w0.st with
                      creating := false,
                      selectedTrackId := some tid,
                      editingTrack := false } } := by
  simp [handleSelectTrack, applySelectTrack, hm, hl]

theorem commit_finish (w1 : World) (selectNext : Int → Option Nat) (rest : List Nat)
    (M2 : CamMap) (tid : Nat)
    (hfold : removeTracksFold w1.st.camMap "" rest = (M2, none))
    (hfilter : w1.st.mergeList.filter (fun trackId => !rest.contains trackId) = [tid])
    (hlink : w1.st.linkingState = false) :
    (handleSelectTrack (handleToggleMerge
        (handleRemoveTrack w1 selectNext rest true "" true).1)
      (some tid) false).st.camMap = M2
    ∧ (handleSelectTrack (handleToggleMerge
        (handleRemoveTrack w1 selectNext rest true "" true).1)
      (some tid) false).st.mergeList = []
    ∧ (handleSelectTrack (handleToggleMerge
        (handleRemoveTrack w1 selectNext rest true "" true).1)
      (some tid) false).st.selectedTrackId = some tid
    ∧ (handleSelectTrack (handleToggleMerge
        (handleRemoveTrack w1 selectNext rest true "" true).1)
      (some tid) false).st.editingTrack = false
    ∧ (handleSelectTrack (handleToggleMerge
        (handleRemoveTrack w1 selectNext rest true "" true).1)
      (some tid) false).prompts = w1.prompts := by
  obtain ⟨hr1, hr2⟩ := handleRemoveTrack_force w1 selectNext rest M2 hfold
  rw [hr1]
  rw [handleToggleMerge_clears
    { w1 with
        st := applySelectTrack
            { w1.st with
                camMap := M2,
                mergeList := w1.st.mergeList.filter
                    (fun trackId => !rest.contains trackId) }
            (match selectNext 1 with
              | some x => some x
              | none => selectNext (-1))
            false }
    (by
      simp only [applySelectTrack]
      rw [hfilter]
      simp)]
  simp [handleSelectTrack, applySelectTrack, hlink]

/-- C4: `commitMerge` with fewer than two candidates changes no state; with two
or more candidates — all present on the selected camera, the candidate list
duplicate-free, linking inactive — it merges every other candidate's track into
the first candidate's track on the selected camera, removes the other
candidates from every camera without surfacing any confirmation prompt, empties
the merge candidate list, and selects the surviving track with editing off, so
no removed candidate id remains anywhere in the store. -/
theorem C4_commitMerge (w : World) (selectNext : Int → Option Nat) :
    (w.st.mergeList.length < 2 → handleCommitMerge w selectNext = (w, none))
    ∧ (∀ first rest t0 others,
        w.st.mergeList = first :: rest → rest ≠ [] → (first :: rest).Nodup →
        w.st.linkingState = false → t0.trackId = first →
        getTrack w.st.camMap first w.st.selectedCamera = Except.ok t0 →
        getTracksExc w.st.camMap w.st.selectedCamera rest = Except.ok others →
        (handleCommitMerge w selectNext).2 = none
        ∧ (handleCommitMerge w selectNext).1.st.mergeList = []
        ∧ (handleCommitMerge w selectNext).1.st.selectedTrackId = some first
        ∧ (handleCommitMerge w selectNext).1.st.editingTrack = false
        ∧ (handleCommitMerge w selectNext).1.prompts = w.prompts
        ∧ getPossibleTrack (handleCommitMerge w selectNext).1.st.camMap first
            w.st.selectedCamera = some (Track.merge t0 others)
        ∧ (∀ trackId ∈ rest, getTrackAll (handleCommitMerge w selectNext).1.st.camMap
            trackId = [])) := by
  constructor
  · intro h
    simp [handleCommitMerge, Nat.not_le.mpr h]
  · intro first rest t0 others hml hrest hnd hlink ht0 hget hexc
    have hlen2 : 2 ≤ (first :: rest).length := by
      cases rest with
      | nil => exact absurd rfl hrest
      | cons a as =>
        simp only [List.length_cons]
        omega
    have hfirst_not : first ∉ rest := (List.nodup_cons.mp hnd).1
    have hndr : rest.Nodup := (List.nodup_cons.mp hnd).2
    have hexmem := getTracksExc_ok_mem w.st.camMap w.st.selectedCamera rest others hexc
    have hex : ∀ trackId ∈ rest,
        getTrackAll (camMapInsert w.st.camMap w.st.selectedCamera first
          (Track.merge t0 others)) trackId ≠ [] := by
      intro t ht
      obtain ⟨tt, htt⟩ := hexmem t ht
      have hne : t ≠ first := fun hcontra => hfirst_not (hcontra ▸ ht)
      rw [getTrackAll_camMapInsert_ne _ _ _ _ _ hne]
      exact getTrackAll_ne_nil_of_getPossibleTrack _ _ _ _ htt
    obtain ⟨h1, h2, h3⟩ := removeTracksFold_all rest
      (camMapInsert w.st.camMap w.st.selectedCamera first (Track.merge t0 others)) hndr hex
    have hpr : removeTracksFold (camMapInsert w.st.camMap w.st.selectedCamera first
          (Track.merge t0 others)) "" rest
        = ((removeTracksFold (camMapInsert w.st.camMap w.st.selectedCamera first
            (Track.merge t0 others)) "" rest).1, none) := by
      rw [← h1]
    have hcommit : handleCommitMerge w selectNext
        = (handleSelectTrack (handleToggleMerge
            (handleRemoveTrack
              { w with st := { w.st with
                  camMap := camMapInsert w.st.camMap w.st.selectedCamera first
                    (Track.merge t0 others) } }
              selectNext rest true "" true).1)
          (some (Track.merge t0 others).trackId) false, none) := by
      simp only [handleCommitMerge, hml, hlen2, if_true, hget, hexc]
    have htid : (Track.merge t0 others).trackId = first := ht0
    rw [htid] at hcommit
    have hfin := commit_finish
      { w with st := { w.st with
          camMap := camMapInsert w.st.camMap w.st.selectedCamera first
            (Track.merge t0 others) } }
      selectNext rest
      ((removeTracksFold (camMapInsert w.st.camMap w.st.selectedCamera first
          (Track.merge t0 others)) "" rest).1)
      first
      hpr
      (by
        show List.filter (fun trackId => !rest.contains trackId) w.st.mergeList = [first]
        rw [hml]
        exact filter_merge_first first rest hfirst_not)
      hlink
    obtain ⟨hf1, hf2, hf3, hf4, hf5⟩ := hfin
    rw [hcommit]
    refine ⟨rfl, hf2, hf3, hf4, hf5, ?_, ?_⟩
    · rw [hf1]
      rw [(h3 first hfirst_not).1 w.st.selectedCamera]
      exact getPossibleTrack_camMapInsert_self _ _ _ _
    · intro trackId htr
      rw [hf1]
      exact h2 trackId htr

/-- Merge primary track (fixture for C4). -/
def c4TrackA : Track :=
  { trackId := 1, begin := 5, end_ := 5, features := [],
    confidencePairs := [("foo", 1)], attributes := [] }

/-- Merge secondary track (fixture for C4). -/
def c4TrackB : Track :=
  { trackId := 2, begin := 10, end_ := 20, features := [],
    confidencePairs := [("foo", 1)], attributes := [] }

/-- Merge pending over tracks 1 and 2 (fixture for C4). -/
def c4World : World :=
  { st :=
      { selectedTrackId := some 1, selectedCamera := "singleCam", editingTrack := false,
        camMap := [("singleCam", [(1, c4TrackA), (2, c4TrackB)])], editing := "rectangle",
        selectedKey := "", mergeList := [1, 2], linkingState := false, linkingTrack := none,
        linkingCamera := "", creating := false, editingCanary := false, frame := 5,
        nextTrackId := 3, settings := baseSettings },
    prompts := [], preventInterrupts := 0, deactivations := [] }

/-- C4 witness: committing the merge of tracks 1 and 2 absorbs track 2 into
track 1, removes track 2 everywhere, empties the merge list, prompts nothing
and selects track 1 without editing. -/
theorem C4_commitMerge_witness :
    (handleCommitMerge c4World (fun _ => none)).2 = none
    ∧ (handleCommitMerge c4World (fun _ => none)).1.st.mergeList = []
    ∧ (handleCommitMerge c4World (fun _ => none)).1.st.selectedTrackId = some 1
    ∧ (handleCommitMerge c4World (fun _ => none)).1.st.editingTrack = false
    ∧ (handleCommitMerge c4World (fun _ => none)).1.prompts = c4World.prompts
    ∧ getPossibleTrack (handleCommitMerge c4World (fun _ => none)).1.st.camMap 1
        c4World.st.selectedCamera = some (Track.merge c4TrackA [c4TrackB])
    ∧ (∀ trackId ∈ [2], getTrackAll (handleCommitMerge c4World (fun _ => none)).1.st.camMap
        trackId = []) :=
  (C4_commitMerge c4World (fun _ => none)).2 1 [2] c4TrackA [c4TrackB]
    rfl (by decide) (by decide) rfl rfl rfl rfl
